import Mathlib

/-!
# birdtradebot — verification of the order lifecycle & reconciliation engine

Shallow embedding of the Python sources under `src/birdtradebot/` (run.py,
exchange.py, order.py, utils.py, twitter.py, rule.py).  Python `Decimal`
arithmetic is embedded as exact rationals (`ℚ`): the additions,
subtractions, multiplications and divisions the claims depend on are exact
at the magnitudes the program handles, and `run.py` sets the decimal
context to `ROUND_DOWN` only for explicit `round_down` calls, which we
model exactly.  Python `dict`s are embedded as insertion-ordered
association lists; a missing key is a `KeyError`.  Fallible code returns
`Except PyErr`; the distinguished error values mirror the exception
classes of `order.py` plus the built-in exceptions the code can raise.
-/

namespace Birdtradebot

/-- The exception taxonomy of `order.py` (`OrderError` and its subclasses)
plus the Python built-in exceptions reachable in the embedded code. -/
inductive PyErr where
  | insufficientFunds
  | orderSizeTooSmall
  | orderNotFound
  | orderExpired
  | orderError
  | keyError
  | typeError
  | attributeError
  | valueError
  | zeroDivisionError
deriving DecidableEq, Repr

/-- `except OrderError` clauses catch exactly `OrderError` and its
subclasses (`InsufficientFunds`, `OrderSizeTooSmall`, `OrderNotFound`,
`OrderExpired`); built-in exceptions propagate. -/
def PyErr.isOrderError : PyErr → Bool
  | .insufficientFunds => true
  | .orderSizeTooSmall => true
  | .orderNotFound => true
  | .orderExpired => true
  | .orderError => true
  | _ => false

abbrev Currency := String

/-- A Python `dict` mapping currency to a `Decimal` amount or `None`
(`AccountState.__init__` stores `None` when the configured initial amount
is `None`). Insertion-ordered association list, like a Python dict. -/
abbrev Balance := List (Currency × Option ℚ)

/-- `d[c]` without the `KeyError`: `none` means the key is absent. -/
def balGet : Balance → Currency → Option (Option ℚ)
  | [], _ => none
  | kv :: rest, c => if kv.1 = c then some kv.2 else balGet rest c

/-- `d[c] = v`: replace in place if present, else append (dict insertion
order semantics). -/
def balSet : Balance → Currency → Option ℚ → Balance
  | [], c, v => [(c, v)]
  | kv :: rest, c, v =>
    if kv.1 = c then (c, v) :: rest else kv :: balSet rest c v

@[simp] theorem balGet_nil (c : Currency) : balGet [] c = none := rfl

theorem balGet_balSet_same (b : Balance) (c : Currency) (v : Option ℚ) :
    balGet (balSet b c v) c = some v := by
  induction b with
  | nil => simp [balSet, balGet]
  | cons kv rest ih =>
    by_cases h : kv.1 = c
    · simp [balSet, balGet, h]
    · simp [balSet, balGet, h, ih]

theorem balGet_balSet_other (b : Balance) (c c' : Currency) (v : Option ℚ)
    (h : c' ≠ c) : balGet (balSet b c v) c' = balGet b c' := by
  induction b with
  | nil => simp [balSet, balGet, Ne.symm h]
  | cons kv rest ih =>
    by_cases hk : kv.1 = c
    · subst hk
      simp [balSet, balGet, Ne.symm h]
    · by_cases hk' : kv.1 = c'
      · simp [balSet, balGet, hk, hk', h]
      · simp [balSet, balGet, hk, hk', ih]

/-- `utils.round_down(n, d)`: `math.floor(n * 10^d) / 10^d` (the Python
default for `d` is 8). -/
def roundDown (n : ℚ) (d : ℕ := 8) : ℚ :=
  (Int.floor (n * (10 : ℚ) ^ d) : ℚ) / (10 : ℚ) ^ d

theorem roundDown_nonneg {n : ℚ} (d : ℕ) (h : 0 ≤ n) : 0 ≤ roundDown n d := by
  unfold roundDown
  apply div_nonneg _ (by positivity)
  have : (0 : ℚ) ≤ n * (10 : ℚ) ^ d := by positivity
  exact_mod_cast Int.floor_nonneg.mpr this

theorem roundDown_le {n : ℚ} (d : ℕ) : roundDown n d ≤ n := by
  unfold roundDown
  rw [div_le_iff₀ (by positivity)]
  exact Int.floor_le _

/-- Order sides; `order.py` validates `side ∈ {'buy', 'sell'}`. -/
inductive Side where
  | buy
  | sell
deriving DecidableEq, Repr

/-- Order types; `order.py` validates `type ∈ {'limit', 'market', 'stop'}`. -/
inductive OrderType where
  | limit
  | market
  | stop
deriving DecidableEq, Repr

/-- The Python string stored in `Order.type`; `place_market_order` compares
this string against `'buy'`. -/
def orderTypeStr : OrderType → String
  | .limit => "limit"
  | .market => "market"
  | .stop => "stop"

/-- The deferred price formulas that appear in the repository's rule
configuration (`'{inside_bid}'`, `'{inside_ask}'`, or a literal constant).
`new_order` resolves them with `eval(template.price.format(...))`; the
formula language itself is arbitrary Python (out of scope per the spec),
modelled as the closed set of formulas the configuration uses. -/
inductive PriceFormula where
  | insideBid
  | insideAsk
  | const (q : ℚ)
deriving DecidableEq, Repr

def evalPriceFormula (f : PriceFormula) (bid ask : ℚ) : ℚ :=
  match f with
  | .insideBid => bid
  | .insideAsk => ask
  | .const q => q

/-- The deferred size formulas appearing in the repository's configuration:
a literal `Decimal`, `'{max_account_buy_size}'`, `'{max_account_sell_size}'`
or `'{split_size}'` (`calc_buy_size` special-cases the last one). -/
inductive SizeFormula where
  | fixed (q : ℚ)
  | maxAccountBuySize
  | maxAccountSellSize
  | splitSize
deriving DecidableEq, Repr

/-- `order.py`'s `Order`, restricted to the fields the engine reads.  A
`product_id` string `"BASE-QUOTE"` is embedded as the pair of its two
components (`split('-', 1)`); the repository's currencies contain no `'-'`.
`postOnly` is the Python *truthiness* of the `post_only` attribute: note
`order_to_dict` stringifies booleans and `Order.__init__` takes the string
back verbatim, so a template's `post_only=False` round-trips to the truthy
string `'False'`. -/
structure Order where
  type : OrderType
  side : Side
  productBase : Currency
  productQuote : Currency
  price : Option ℚ
  size : ℚ
  postOnly : Bool
deriving DecidableEq, Repr

/-- `order.py`'s `OrderState`: a server-confirmed order snapshot. -/
structure OrderState where
  id : String
  type : OrderType
  side : Side
  productBase : Currency
  productQuote : Currency
  price : ℚ
  size : ℚ
  filledSize : ℚ
  executedValue : ℚ
  fillFees : ℚ
  status : String
  settled : Bool
  timestamp : ℤ
deriving DecidableEq, Repr

/-- `order.py`'s `OrderTemplate`, restricted to the fields the engine
reads; price/size formulas stay deferred.  `postOnly = none` embeds a
`post_only` attribute of `None` (excluded from `order_to_dict`); `some b`
embeds a genuine boolean, which `order_to_dict` stringifies to the truthy
`'True'`/`'False'`. -/
structure OrderTemplate where
  type : OrderType
  side : Side
  productBase : Currency
  productQuote : Currency
  priceFormula : PriceFormula
  sizeFormula : SizeFormula
  postOnly : Option Bool
deriving DecidableEq, Repr

/-- `rule.py`'s `Rule`, restricted to the fields the engine reads. -/
structure Rule where
  id : String
  orderTemplate : OrderTemplate
  ttl : ℤ
  orderTtl : ℤ
  tweetTtl : ℤ
  marketFallback : Bool
  splitOrderSize : ℚ
  handles : List String
  agreementHandles : List String
deriving DecidableEq, Repr

/-- `twitter.py`'s `Tweet`, restricted to the fields `Pair.update` and
`TwitterState.update` read.  Twitter ids are numeric and totally ordered. -/
structure Tweet where
  id : ℤ
  handle : String
  text : String
  createdTs : ℤ
  position : Option String
deriving DecidableEq, Repr

/-- Generic insertion-ordered dict over `String` keys. -/
def assocGet {α : Type} : List (String × α) → String → Option α
  | [], _ => none
  | kv :: rest, k => if kv.1 = k then some kv.2 else assocGet rest k

def assocSet {α : Type} : List (String × α) → String → α → List (String × α)
  | [], k, v => [(k, v)]
  | kv :: rest, k, v =>
    if kv.1 = k then (k, v) :: rest else kv :: assocSet rest k v

theorem assocGet_assocSet_same {α : Type} (m : List (String × α)) (k : String)
    (v : α) : assocGet (assocSet m k v) k = some v := by
  induction m with
  | nil => simp [assocSet, assocGet]
  | cons kv rest ih =>
    by_cases h : kv.1 = k
    · simp [assocSet, assocGet, h]
    · simp [assocSet, assocGet, h, ih]

/-! ## `exchange.py` — `Pair` and `Pair.update` -/

/-- The mutable fields of `exchange.py`'s `Pair`, except the `previous`
audit snapshot (split off so that the snapshot — which is always taken
with `self.previous = None` — can be stored without recursion).  `status`
is the literal Python value: `None` or a string (`'done'`, `'expired'`). -/
structure PairCore where
  productBase : Currency
  productQuote : Currency
  pendingOrders : List OrderState
  size : ℚ
  filledSize : ℚ
  executedValue : ℚ
  rule : Option Rule
  status : Option String
  settled : Bool
  position : Option String
  expiration : ℤ
  twitter : List (String × Tweet)
  updated : Bool
  errors : ℕ
deriving DecidableEq, Repr

/-- `exchange.py`'s `Pair`: the core fields plus the `previous` snapshot
(`Pair.update` sets `self.previous = None` immediately before taking the
`deepcopy`, so the snapshot itself never carries a `previous`). -/
structure Pair extends PairCore where
  previous : Option PairCore
deriving DecidableEq, Repr

/-- `Pair.__init__(product_id)`. -/
def Pair.init (base quote : Currency) : Pair :=
  { productBase := base
    productQuote := quote
    pendingOrders := []
    size := 0
    filledSize := 0
    executedValue := 0
    rule := none
    status := some "done"
    settled := false
    position := none
    expiration := 0
    twitter := []
    updated := false
    errors := 0
    previous := none }

/-- `Pair.update_balance(order_state)`: fold an order's fill into the
pair's running totals. -/
def pairUpdateBalance (p : Pair) (os : OrderState) : Pair :=
  { p with
    filledSize := p.filledSize + os.filledSize
    executedValue := p.executedValue + os.executedValue }

/-- `tweet.position = 'long' if rule.order_template.side == 'buy' else
'short'` (exchange.py 146). -/
def stampPosition (r : Rule) (t : Tweet) : Tweet :=
  { t with
    position := some (if r.orderTemplate.side = Side.buy then "long" else "short") }

/-- The agreement loop of `Pair.update`: after the incoming tweet has been
stored, every configured agreement handle whose saved tweet exists must
have the same position (`KeyError` ⇒ skipped, i.e. counts as agreement). -/
def agreementReached (tw : List (String × Tweet)) (t : Tweet)
    (handles : List String) : Bool :=
  handles.all (fun h =>
    match assocGet tw h with
    | none => true
    | some saved => t.position == saved.position)

/-- `Pair.update(rule, tweet)` of `exchange.py` (lines 137–188), with
`int(time.time())` passed in as `now`.

Order of effects, mirroring the source: (1) ordering check against the
tweet stored for the same handle — early return changes nothing; (2) the
tweet's `position` is set from the rule's side and the tweet is stored;
(3) agreement check — failure returns with only the stored-tweet map
changed; (4) staleness check (`now > created_ts + tweet_ttl`) — failure
likewise returns with only the stored-tweet map changed; (5) acceptance:
`updated`/`errors` reset, audit snapshot taken, then rule, expiration and
the counters are reset. -/
def pairUpdate (now : ℤ) (r : Rule) (t : Tweet) (p : Pair) : Pair :=
  match assocGet p.twitter t.handle with
  | some t0 =>
    if t.id ≤ t0.id then p else pairUpdate.go now r t p
  | none => pairUpdate.go now r t p
where
  go (now : ℤ) (r : Rule) (t : Tweet) (p : Pair) : Pair :=
    let t' : Tweet := stampPosition r t
    let tw' := assocSet p.twitter t.handle t'
    if r.agreementHandles ≠ [] ∧ ¬ agreementReached tw' t' r.agreementHandles then
      { p with twitter := tw' }
    else if now > t.createdTs + r.tweetTtl then
      { p with twitter := tw' }
    else
      let snapshot : PairCore :=
        { p.toPairCore with twitter := tw', updated := true, errors := 0 }
      { p with
        twitter := tw'
        updated := true
        errors := 0
        previous := some snapshot
        rule := some r
        expiration := now + r.ttl
        size := 0
        filledSize := 0
        executedValue := 0
        status := none
        position := none
        settled := false }

/-! ## `twitter.py` — `TwitterState.update` -/

/-- What `TwitterState.handles` actually stores: `TwitterState.update`
line 41 assigns the `Tweet` *class object* (not the tweet instance), so a
stored value is either a real `Tweet` instance (never produced by this
method) or the class object, which has no `id` attribute. -/
inductive StoredTweet where
  | inst (t : Tweet)
  | cls
deriving DecidableEq, Repr

/-- Attribute access `x.id` on a stored value: the `Tweet` class object has
no `id` attribute (`id` is only set on instances in `__init__`), so access
on `cls` is an `AttributeError`. -/
def StoredTweet.getId : StoredTweet → Option ℤ
  | .inst t => some t.id
  | .cls => none

structure TwitterState where
  handles : List (String × StoredTweet)
deriving DecidableEq, Repr

/-- `TwitterState.update(tweet)` of `twitter.py` (lines 35–41): on a
`KeyError` the fallback sets `current = Tweet` (the class), and the
subsequent `tweet.id >= current.id` raises `AttributeError`; when the
comparison succeeds the method stores the `Tweet` class object, not the
tweet. -/
def twitterStateUpdate (st : TwitterState) (t : Tweet) :
    Except PyErr TwitterState :=
  let current : StoredTweet :=
    match assocGet st.handles t.handle with
    | some v => v
    | none => .cls
  match current.getId with
  | none => .error .attributeError
  | some cid =>
    .ok (if t.id ≥ cid then ⟨assocSet st.handles t.handle .cls⟩ else st)

/-! ## `exchange.py` — `Account`: capture/refund and order submission -/

/-- Modelled from the spec: `ActiveOrder` is imported from `order.py` by
`exchange.py` and `run.py` but its definition is not under `src/`.  Per the
spec (§3, in-flight unconfirmed orders) and its construction/use sites
(`ActiveOrder(order, currency, captured_amount)` in `_order_action`;
`.captured`, `.currency`, `.timestamp`, `.order`, `.order_state` read in
`exchange.py` and `run.py`), it is a plain record of the submitted order,
the provisionally captured currency and amount (`None`/`None` on
non-virtual accounts), the submission timestamp, and the server-confirmed
state once known. -/
structure ActiveOrder where
  order : Order
  currency : Option Currency
  captured : Option ℚ
  timestamp : ℤ
  orderState : Option OrderState
deriving DecidableEq, Repr

/-- The data fields of `exchange.py`'s `AccountState` that the claims
touch (`Account` aliases them directly). -/
structure AccountSt where
  balance : Balance
  pendingOrders : List (String × ActiveOrder)
  unconfirmedOrders : List ActiveOrder
  doneOrders : List (String × OrderState)
  virtual : Bool
deriving DecidableEq, Repr

/-- `'pat' in s` on strings, as used by `Account._handle_errors`. -/
def strContains (s pat : String) : Bool :=
  2 ≤ (s.splitOn pat).length

/-- The raw reply of an exchange `buy`/`sell`/`cancel`/`get_order` call as
seen by `_order_action`: the call can raise (network-level exception from
the client library), return `None`, return an error dict
(`{'message': ...}`), or return a well-formed order dict. -/
inductive ServerReply where
  | raised (e : PyErr)
  | noReply
  | errMessage (m : String)
  | state (os : OrderState)
deriving DecidableEq, Repr

/-- The error-message taxonomy of `Account._handle_errors` (substring
match on the lowercased message). -/
def classifyMessage (m : String) : PyErr :=
  let s := m.toLower
  if strContains s "insufficient funds" then .insufficientFunds
  else if strContains s "order size is too small" then .orderSizeTooSmall
  else if strContains s "not found" then .orderNotFound
  else .orderError

/-- `Account._handle_errors(reply)` followed by `OrderState(reply)` on the
non-error path, with a raising call short-circuiting before both. -/
def submitResult (reply : ServerReply) : Except PyErr OrderState :=
  match reply with
  | .raised e => .error e
  | .noReply => .error .orderError
  | .errMessage m => .error (classifyMessage m)
  | .state os => .ok os

/-- `Account._capture_balance_for_order(order)` (exchange.py 412–437).
On a virtual account, provisionally debit the currency the order will
spend: for a buy, quote currency `size × price`, plus `capture ×
taker_fee` when `post_only` is falsy; for a sell, base currency `size`.
Returns the debited balance and the `(currency, amount)` pair, or
`InsufficientFunds` when the capture exceeds the available balance
(`KeyError`/`TypeError` when the balance entry is absent or `None`,
mirroring the dict access and `Decimal`-vs-`None` comparison). -/
def captureBalanceForOrder (virtual : Bool) (takerFee : ℚ) (bal : Balance)
    (o : Order) : Except PyErr (Balance × Option Currency × Option ℚ) :=
  if ¬ virtual then .ok (bal, none, none)
  else
    match o.side with
    | .buy =>
      match o.price with
      | none => .error .typeError
      | some pr =>
        let cap0 := o.size * pr
        let cap := if o.postOnly then cap0 else cap0 + cap0 * takerFee
        match balGet bal o.productQuote with
        | none => .error .keyError
        | some none => .error .typeError
        | some (some avail) =>
          if cap > avail then .error .insufficientFunds
          else .ok (balSet bal o.productQuote (some (avail - cap)),
                    some o.productQuote, some cap)
    | .sell =>
      let cap := o.size
      match balGet bal o.productBase with
      | none => .error .keyError
      | some none => .error .typeError
      | some (some avail) =>
        if cap > avail then .error .insufficientFunds
        else .ok (balSet bal o.productBase (some (avail - cap)),
                  some o.productBase, some cap)

/-- The refund in the `finally` block of `_order_action`:
`self.balance[active.currency] += active.captured`.  A `None` currency
(non-virtual account) raises `KeyError` (the dict has no `None` key); a
missing balance entry raises `KeyError`; a `None` amount or `None` entry
raises `TypeError`. -/
def refundActive (bal : Balance) (a : ActiveOrder) : Except PyErr Balance :=
  match a.currency with
  | none => .error .keyError
  | some c =>
    match balGet bal c with
    | none => .error .keyError
    | some none => .error .typeError
    | some (some v) =>
      match a.captured with
      | none => .error .typeError
      | some amt => .ok (balSet bal c (some (v + amt)))

/-- `Account._order_action(order, action)` (exchange.py 439–475), with the
exchange call's outcome passed in as `reply` and `int(time.time())` as
`now`.  Returns the result of the `try` body (the confirmed `OrderState`
or the exception), the account state after the `finally` block, and
whether the exchange call was actually made (the capture can raise
first).  Mirrored control flow: capture; clear any stale unconfirmed list
and append the new `ActiveOrder`; submit; in `finally`, pop the
unconfirmed order and either register it as pending (success) or refund
its captured amount (failure) — an exception raised by the refund itself
replaces the in-flight exception, as in Python. -/
def orderAction (takerFee : ℚ) (now : ℤ) (st : AccountSt) (o : Order)
    (reply : ServerReply) : Except PyErr OrderState × AccountSt × Bool :=
  match captureBalanceForOrder st.virtual takerFee st.balance o with
  | .error e =>
    -- the capture raised inside `try`, before the unconfirmed list was
    -- touched; `finally` still pops and refunds a stale unconfirmed order
    -- if one lingers.
    match st.unconfirmedOrders.getLast? with
    | none => (.error e, st, false)
    | some stale =>
      let st' := { st with unconfirmedOrders := st.unconfirmedOrders.dropLast }
      match refundActive st'.balance stale with
      | .error e' => (.error e', st', false)
      | .ok bal' => (.error e, { st' with balance := bal' }, false)
  | .ok (bal1, cur, cap) =>
    let active : ActiveOrder :=
      { order := o, currency := cur, captured := cap, timestamp := now
        orderState := none }
    let st1 : AccountSt := { st with balance := bal1, unconfirmedOrders := [active] }
    match submitResult reply with
    | .ok os =>
      (.ok os,
       { st1 with
         unconfirmedOrders := []
         pendingOrders :=
           assocSet st1.pendingOrders os.id { active with orderState := some os } },
       true)
    | .error e =>
      match refundActive st1.balance active with
      | .error e' => (.error e', { st1 with unconfirmedOrders := [] }, true)
      | .ok bal' =>
        (.error e, { st1 with unconfirmedOrders := [], balance := bal' }, true)

/-! ## `run.py` `trade()` — startup reconciliation of unconfirmed orders -/

/-- Modelled from the spec: `orders_match` is imported from `order.py` by
`run.py` but not defined under `src/`.  Per the spec (§4.7) and the
comment above its call site, a server order matches a lost local order
when product, side, type and size coincide. -/
def ordersMatch (so : OrderState) (o : Order) : Bool :=
  so.productBase == o.productBase && so.productQuote == o.productQuote &&
  so.side == o.side && so.type == o.type && so.size == o.size

/-- The inner search of the reconciliation loop (run.py 817–835): walk the
listed server orders (open then closed history, already restricted by the
server to the `since = timestamp - order_ttl` validity window), skipping
ids already known as pending or done, and stop at the first field match. -/
def findLostOrder (knownIds : List String) (serverOrders : List OrderState)
    (lost : ActiveOrder) : Option OrderState :=
  serverOrders.find? (fun so => !knownIds.contains so.id && ordersMatch so lost.order)

/-- One account's reconciliation step (run.py 811–839).  An account with no
unconfirmed order is skipped (`continue`).  Otherwise the single recorded
unconfirmed order is popped; if a server order matches, it is registered
as pending and handed back for cancellation (the returned id); if none
matches, the captured amount is refunded to the captured currency —
unconditionally, via `balance[currency] += captured` (with the usual
`KeyError`/`TypeError` on a `None` currency/amount). -/
def reconcileUnconfirmed (st : AccountSt) (serverOrders : List OrderState)
    (knownIds : List String) : Except PyErr (AccountSt × Option String) :=
  match st.unconfirmedOrders.getLast? with
  | none => .ok (st, none)
  | some lost =>
    let st1 := { st with unconfirmedOrders := st.unconfirmedOrders.dropLast }
    match findLostOrder knownIds serverOrders lost with
    | some so =>
      .ok ({ st1 with pendingOrders := assocSet st1.pendingOrders so.id lost },
           some so.id)
    | none =>
      match refundActive st1.balance lost with
      | .error e => .error e
      | .ok bal' => .ok ({ st1 with balance := bal' }, none)

/-! ## Balance refresh (`Exchange.refresh_balance` / `Account.get_accounts`) -/

/-- `Exchange.refresh_balance(extra_pairs)` (exchange.py 70–85): overwrite
the cached exchange balance with the reply's `currency → available`
entries, then zero-fill any currency of a tracked pair that is missing. -/
def exchangeRefreshBalance (cache : List (Currency × ℚ))
    (reply : List (Currency × ℚ)) (extraSymbols : List Currency) :
    List (Currency × ℚ) :=
  let b := reply.foldl (fun b cv => assocSet b cv.1 cv.2) cache
  extraSymbols.foldl
    (fun b s => if (assocGet b s).isNone then assocSet b s 0 else b) b

/-- `Account.get_accounts()` (exchange.py 238–249): for every currency the
exchange reports, cap the locally tracked amount at the exchange-reported
amount (`min`); a missing or `None` local amount, or a non-virtual
account, takes the exchange amount as-is. -/
def getAccounts (virtual : Bool) (bal : Balance)
    (exch : List (Currency × ℚ)) : Balance :=
  exch.foldl
    (fun b se =>
      let b := match balGet b se.1 with
               | none => balSet b se.1 (some 0)
               | some _ => b
      match balGet b se.1 with
      | some amt =>
        let a : ℚ := match amt with
                     | none => se.2
                     | some a => if virtual then a else se.2
        balSet b se.1 (some (min a se.2))
      | none => b)
    bal

/-! ## `run.py` — order sizing and `new_order` -/

/-- `PRICE_PRECISION` (run.py 75–81) with its `.get(product, 2)` default. -/
def pricePrecision (base quote : Currency) : ℕ :=
  if base = "ETH" ∧ quote = "EUR" then 2
  else if base = "BTC" ∧ quote = "EUR" then 2
  else if base = "ETH" ∧ quote = "BTC" then 5
  else if base = "IOT" ∧ quote = "USD" then 4
  else if base = "EOS" ∧ quote = "ETH" then 6
  else 2

def PairCore.productId (p : PairCore) : String :=
  p.productBase ++ "-" ++ p.productQuote

/-- The `short_pairs` loop of `calc_buy_size` (run.py 136–167).  The
`endswith('-QUOTE')` filter is quote-currency equality for the dash-free
currency symbols the program trades.  A pair with no position and no rule
raises `AttributeError` (`pair.rule.order_template` on `None`). -/
def shortPairsOf (quote : Currency) (ps : List Pair) :
    Except PyErr (List String) :=
  ps.foldlM
    (fun acc p =>
      if p.productQuote ≠ quote then .ok acc
      else if p.position = some "long" then .ok acc
      else if p.position = some "short" then .ok (acc ++ [p.productId])
      else
        match p.rule with
        | none => .error .attributeError
        | some r =>
          let buying := r.orderTemplate.side = Side.buy
          if p.status = some "expired" then
            .ok (if ¬ buying then acc ++ [p.productId] else acc)
          else
            .ok (if buying then acc ++ [p.productId] else acc))
    []

/-- `calc_buy_size(account, pair, ask, bid, price)` (run.py 133–185).
Note the source's loop variable `pair` shadows the parameter, so the size
formula consulted after the loop belongs to the *last* pair of
`account.pairs` (or to the argument when the account map is empty). -/
def calcBuySize (balance : Balance) (accountPairs : List Pair) (p : Pair)
    (price : ℚ) : Except PyErr ℚ := do
  let qc := p.productQuote
  let shorts ← shortPairsOf qc accountPairs
  let pLast := accountPairs.getLast?.getD p
  match pLast.rule with
  | none => .error .attributeError
  | some rLast =>
    if rLast.orderTemplate.sizeFormula = SizeFormula.splitSize then
      match balGet balance qc with
      | none => .error .keyError
      | some none => .error .typeError
      | some (some avail) =>
        if shorts.length = 0 then .error .zeroDivisionError
        else if price = 0 then .error .zeroDivisionError
        else .ok (roundDown (avail / (shorts.length : ℚ) / price))
    else
      match balGet balance qc with
      | none => .error .keyError
      | some none => .error .typeError
      | some (some avail) =>
        if price = 0 then .error .zeroDivisionError
        else
          let maxAccountBuySize := avail / price
          match rLast.orderTemplate.sizeFormula with
          | .fixed q => .ok (roundDown q)
          | .maxAccountBuySize => .ok (roundDown maxAccountBuySize)
          | .maxAccountSellSize => .error .keyError
          | .splitSize => .error .valueError

/-- `calc_sell_size(account, pair, ask, bid)` (run.py 188–202).  A `None`
balance entry makes the eval'd size `None` and `round_down` then raises
`TypeError`; `'{max_account_buy_size}'`/`'{split_size}'` are not keys of
the sell-side `format` call. -/
def calcSellSize (balance : Balance) (p : Pair) : Except PyErr ℚ :=
  match balGet balance p.productBase with
  | none => .error .keyError
  | some maxAccountSellSize =>
    match p.rule with
    | none => .error .attributeError
    | some r =>
      match r.orderTemplate.sizeFormula with
      | .fixed q => .ok (roundDown q)
      | .maxAccountSellSize =>
        match maxAccountSellSize with
        | none => .error .typeError
        | some a => .ok (roundDown a)
      | .maxAccountBuySize => .error .keyError
      | .splitSize => .error .keyError

/-- The inside bid/ask of `get_product_order_book` (`bids[0][0]`,
`asks[0][0]`); the exchange contract guarantees a non-empty book. -/
structure OrderBook where
  bid : ℚ
  ask : ℚ
deriving DecidableEq, Repr

/-- `new_order(account, pair, template)` (run.py 205–234): refresh the
balance, read the inside bid/ask, resolve the price formula, round the
price down to the product's configured precision, compute the size for the
template's side, and build the concrete `Order` from the stringified
dict.  The built order's `post_only` is the string `str(template.post_only)`
(truthy for both `'True'` and `'False'`) unless the template's attribute is
`None`, in which case `order_to_dict` drops the key and `Order.__init__`
defaults it to `False`.  Returns the order and the refreshed balance. -/
def newOrder (virtual : Bool) (bal : Balance) (exch : List (Currency × ℚ))
    (book : OrderBook) (accountPairs : List Pair) (p : Pair)
    (tmpl : OrderTemplate) : Except PyErr (Order × Balance) := do
  let bal := getAccounts virtual bal exch
  let precision := pricePrecision tmpl.productBase tmpl.productQuote
  let price := evalPriceFormula tmpl.priceFormula book.bid book.ask
  let size ←
    match tmpl.side with
    | .buy => calcBuySize bal accountPairs p price
    | .sell => calcSellSize bal p
  .ok ({ type := tmpl.type
         side := tmpl.side
         productBase := tmpl.productBase
         productQuote := tmpl.productQuote
         price := some (roundDown price precision)
         size := size
         postOnly := tmpl.postOnly.isSome }, bal)

/-! ## `utils.split_amount` and `run.split_order` -/

/-- A Python numeric value whose runtime class matters:
`decimal.Decimal` refuses arithmetic with `float` (`TypeError`), while
comparisons are allowed. -/
inductive PyNum where
  | dec (q : ℚ)
  | flt (q : ℚ)
deriving DecidableEq, Repr

/-- Python `*` on `Decimal`/`float` operands: mixing the two raises
`TypeError` (`decimal.Decimal._convert_other` accepts only `int` and
`Decimal`, and `float.__rmul__` returns `NotImplemented` on `Decimal`). -/
def pyMul : PyNum → PyNum → Except PyErr PyNum
  | .dec a, .dec b => .ok (.dec (a * b))
  | .flt a, .flt b => .ok (.flt (a * b))
  | _, _ => .error .typeError

/-- `utils.split_amount(amount, minval, maxval)` (utils.py 22–31): draw
random part sizes in `[minval, maxval)` (rounded down to 6 decimals),
capped at the remaining amount, until nothing remains.  `draws i ∈ [0, 1)`
stands for the i-th `random.random()` call; `fuel` bounds the source's
unbounded `while` loop (it terminates within any sufficiently large fuel
whenever the drawn parts stay positive). -/
def splitAmount (draws : ℕ → ℚ) : ℕ → ℕ → ℚ → ℚ → ℚ → List ℚ
  | 0, _, _, _, _ => []
  | fuel + 1, i, remaining, minv, maxv =>
    if remaining > 0 then
      let n := draws i * (maxv - minv) + minv
      let part := min remaining (roundDown n 6)
      part :: splitAmount draws fuel (i + 1) (remaining - part) minv maxv
    else []

/-- `split_order(main_order, max_size, truncate)` (run.py 293–305).  When
`main_order.size > max_size` the source evaluates `max_size * 0.8` — a
`Decimal` times a `float` literal — before calling `split_amount`; the
float's exact binary value is written `4/5` here, which is immaterial
because the mixed multiplication raises `TypeError`.  The sub-orders are
rebuilt from the stringified parent dict with only the size replaced
(which also makes a false-boolean `post_only` truthy again; the claims do
not depend on a sub-order's `post_only`). -/
def splitOrder (draws : ℕ → ℚ) (fuel : ℕ) (truncate : ℕ) (mainOrder : Order)
    (maxSize : ℚ) : Except PyErr (List Order) :=
  if mainOrder.size > maxSize then
    match pyMul (.dec maxSize) (.flt (4 / 5)) with
    | .error e => .error e
    | .ok minv =>
      let minq : ℚ := match minv with | .dec q => q | .flt q => q
      let sizes := splitAmount draws fuel 0 mainOrder.size minq maxSize
      .ok ((sizes.take truncate).map (fun s => { mainOrder with size := s }))
  else
    .ok (([mainOrder.size].take truncate).map
          (fun s => { mainOrder with size := s }))

/-! ## `run.py` — order batch operations -/

/-- An entry of `OrderBatch.error`: either a plain `Order` that never got
an id (placement failed) or a server `OrderState`, with the exception
class stored in its `error` attribute. -/
inductive ErrEntry where
  | fromOrder (o : Order) (e : PyErr)
  | fromState (os : OrderState) (e : PyErr)
deriving DecidableEq, Repr

def ErrEntry.err : ErrEntry → PyErr
  | .fromOrder _ e => e
  | .fromState _ e => e

/-- `order.py`'s `OrderBatch`. -/
structure OrderBatch where
  new : List Order := []
  done : List OrderState := []
  pending : List OrderState := []
  error : List ErrEntry := []
deriving DecidableEq, Repr

/-- A record of one actual exchange submission call: which `Account`
method (`buy`/`sell`) was invoked, and the order fields passed.  The
in-repo bitfinex adapter forwards `gdax_order['side']` from the order dict
in both its `buy` and `sell` wrappers, so the side that reaches the
exchange is `order.side` regardless of the channel. -/
structure SubmitEvent where
  channel : Side
  order : Order
deriving DecidableEq, Repr

def SubmitEvent.submittedSide (ev : SubmitEvent) : Side := ev.order.side

/-- `place_orders(action, orders)` (run.py 237–268): submit each new order
through the account (capture, exchange call, refund-or-register), sorting
results into `done`/`pending`/`error`.  `replies i` is the wire outcome of
the i-th call; `OrderError` and subclasses are caught and recorded,
anything else propagates. -/
def placeOrders (takerFee : ℚ) (now : ℤ) (channel : Side)
    (replies : ℕ → ServerReply) (st : AccountSt) (batch : OrderBatch) :
    Except PyErr (AccountSt × OrderBatch × List SubmitEvent) :=
  go 0 st { batch with new := [] } [] batch.new
where
  go (i : ℕ) (st : AccountSt) (batch : OrderBatch) (evs : List SubmitEvent) :
      List Order → Except PyErr (AccountSt × OrderBatch × List SubmitEvent)
  | [] => .ok (st, batch, evs)
  | o :: rest =>
    let res := orderAction takerFee now st o (replies i)
    let st' := res.2.1
    let evs := if res.2.2 then evs ++ [⟨channel, o⟩] else evs
    match res.1 with
    | .ok os =>
      let batch :=
        if os.status = "done" then { batch with done := batch.done ++ [os] }
        else { batch with pending := batch.pending ++ [os] }
      go (i + 1) st' batch evs rest
    | .error e =>
      if e.isOrderError then
        go (i + 1) st' { batch with error := batch.error ++ [.fromOrder o e] }
          evs rest
      else .error e

/-- The outcome of `account.get_order(id)` as seen by a caller: a state,
`OrderNotFound`, or `None` after the bounded polling gave up (in which
case `check_pending_orders` dereferences `state.status` and raises
`AttributeError`).  The account-side bookkeeping `get_order` performs
(done-order registration, delayed virtual-balance update) is part of the
oracle. -/
inductive GetOrderRes where
  | got (os : OrderState)
  | notFound
  | timedOut
deriving DecidableEq, Repr

/-- `check_pending_orders(account, orders)` (run.py 271–290). -/
def checkPendingOrders (getOrder : String → GetOrderRes)
    (batch : OrderBatch) : Except PyErr OrderBatch :=
  go { batch with pending := [] } batch.pending
where
  go (batch : OrderBatch) : List OrderState → Except PyErr OrderBatch
  | [] => .ok batch
  | o :: rest =>
    match getOrder o.id with
    | .notFound =>
      go { batch with error := batch.error ++ [.fromState o .orderNotFound] } rest
    | .timedOut => .error .attributeError
    | .got s =>
      go (if s.status = "done" then { batch with done := batch.done ++ [s] }
          else { batch with pending := batch.pending ++ [s] }) rest

/-- `check_expired_orders(orders, ttl)` (run.py 308–323): re-sort pending
orders, synthesizing `OrderExpired` for any past its time-to-live. -/
def checkExpiredOrders (now : ℤ) (ttl : ℤ) (batch : OrderBatch) : OrderBatch :=
  batch.pending.foldl
    (fun b o =>
      if o.timestamp + ttl > now then { b with pending := b.pending ++ [o] }
      else { b with error := b.error ++ [.fromState o .orderExpired] })
    { batch with pending := [] }

/-- One iteration of the `check_done_orders` (run.py 385–400) loop body:
fold the done order into the pair's totals; a done-but-unsettled order
increments the pair's error counter, and the batch is flagged once the
counter exceeds three. -/
def checkDoneStep (acc : Pair × Bool) (os : OrderState) : Pair × Bool :=
  let q := pairUpdateBalance acc.1 os
  if ¬ os.settled then
    let q := { q with errors := q.errors + 1 }
    (q, if q.errors > 3 then true else acc.2)
  else (q, acc.2)

def checkDoneOrders (p : Pair) (batch : OrderBatch) : Pair × OrderBatch × Bool :=
  let res := batch.done.foldl checkDoneStep (p, false)
  (res.1, { batch with done := [] }, res.2)

/-- One iteration of the `check_error_orders` (run.py 357–382) loop body:
remember the last `InsufficientFunds`/`OrderSizeTooSmall`; for any other
error, cancel the order (a plain `Order` without an `id` attribute is
skipped via the `AttributeError` guard) and fold the awaited final state
into the pair.  `cancelWait id` is the result of
`account.cancel_order(id)` followed by `account.wait_for_order(id)`; the
account-side bookkeeping of the cancellation is part of the oracle. -/
def checkErrorStep (cancelWait : String → Option OrderState)
    (acc : Pair × Option PyErr) (ent : ErrEntry) : Pair × Option PyErr :=
  if ent.err = .insufficientFunds then (acc.1, some .insufficientFunds)
  else if ent.err = .orderSizeTooSmall then (acc.1, some .orderSizeTooSmall)
  else
    match ent with
    | .fromOrder _ _ => acc
    | .fromState os _ =>
      match cancelWait os.id with
      | some st' => (pairUpdateBalance acc.1 st', acc.2)
      | none => acc

def checkErrorOrders (cancelWait : String → Option OrderState) (p : Pair)
    (batch : OrderBatch) : Pair × OrderBatch × Option PyErr :=
  let res := batch.error.foldl (checkErrorStep cancelWait) (p, none)
  (res.1, { batch with error := [] }, res.2)

/-! ## `run.py` — limit cycle, insufficient-funds fallback, market fallback -/

/-- `split_and_place_limit_order(account, pair, orders)` (run.py
326–354): build the main order, bail out with `None` on a zero size,
record the pair's target size on first placement, choose the split
ceiling, and — if fewer than 10 orders are already pending — split and
place the sub-orders.  Returns the refreshed account state and `none`
when the source returns `None`. -/
def splitAndPlaceLimitOrder (takerFee : ℚ) (now : ℤ)
    (exch : List (Currency × ℚ)) (book : OrderBook) (draws : ℕ → ℚ)
    (fuel : ℕ) (replies : ℕ → ServerReply) (accountPairs : List Pair)
    (st : AccountSt) (p : Pair) (batch : OrderBatch) :
    Except PyErr (AccountSt × Option (Pair × OrderBatch × List SubmitEvent)) := do
  match p.rule with
  | none => .error .attributeError
  | some r => do
    let res ← newOrder st.virtual st.balance exch book accountPairs p
      r.orderTemplate
    let mainOrder := res.1
    let st := { st with balance := res.2 }
    if mainOrder.size = 0 then .ok (st, none)
    else
      let p := if p.size = 0 then { p with size := mainOrder.size } else p
      let maxOrderSize :=
        if mainOrder.type = OrderType.limit ∧ r.splitOrderSize > 0 then
          r.splitOrderSize
        else mainOrder.size
      let channel := if mainOrder.side = Side.buy then Side.buy else Side.sell
      if batch.pending.length ≥ 10 then .ok (st, some (p, batch, []))
      else do
        let newOrders ← splitOrder draws fuel (10 - batch.pending.length)
          mainOrder maxOrderSize
        let res ← placeOrders takerFee now channel replies st
          { batch with new := newOrders }
        .ok (res.1, some (p, res.2.1, res.2.2))

/-- `place_limit_order(account, pair)` (run.py 403–437): run the pending /
expired / done / error checks over the pair's in-flight orders (the batch
aliases `pair.pending_orders`, so the pair's list is whatever remains
pending at exit), conclude `done`-settled when the target is filled or
`done`-unsettled on too many errors, and otherwise place the next round of
(possibly split) limit orders. -/
def placeLimitOrder (takerFee : ℚ) (now : ℤ) (exch : List (Currency × ℚ))
    (book : OrderBook) (draws : ℕ → ℚ) (fuel : ℕ)
    (getOrder : String → GetOrderRes) (cancelWait : String → Option OrderState)
    (replies : ℕ → ServerReply) (accountPairs : List Pair)
    (st : AccountSt) (p : Pair) :
    Except PyErr (AccountSt × Pair × List SubmitEvent) := do
  match p.rule with
  | none => .error .attributeError
  | some r => do
    let batch0 : OrderBatch := { pending := p.pendingOrders }
    let batch1 ← checkPendingOrders getOrder batch0
    let batch2 := checkExpiredOrders now r.orderTtl batch1
    let res3 := checkDoneOrders p batch2
    let p := res3.1
    let tooManyErrors := res3.2.2
    let res4 := checkErrorOrders cancelWait p res3.2.1
    let p := res4.1
    let batch4 := res4.2.1
    let p :=
      if p.size ≠ 0 ∧ p.filledSize ≥ p.size then
        { p with status := some "done", settled := true }
      else if tooManyErrors then
        { p with status := some "done", settled := false }
      else p
    if p.status = some "done" then
      .ok (st, { p with pendingOrders := batch4.pending }, [])
    else if batch4.pending ≠ [] then
      .ok (st, { p with pendingOrders := batch4.pending }, [])
    else do
      let res5 ← splitAndPlaceLimitOrder takerFee now exch book draws fuel
        replies accountPairs st p batch4
      let st := res5.1
      match res5.2 with
      | none =>
        .ok (st, { p with status := some "done", settled := false,
                          pendingOrders := batch4.pending }, [])
      | some (p, batch5, evs) =>
        let res6 := checkErrorOrders cancelWait p batch5
        let p := res6.1
        let err := res6.2.2
        let p :=
          if err = some .insufficientFunds ∨ err = some .orderSizeTooSmall then
            { p with status := some "done", settled := false }
          else p
        .ok (st, { p with pendingOrders := res6.2.1.pending }, evs)

/-- `handle_insufficient_funds(account, order)` (run.py 584–620): up to 5
attempts; each re-reads the exchange balance (`exchReads i` is the
exchange-reported balance at attempt `i`), gives up as soon as the tracked
quote balance *dropped* since the pre-refresh read, and otherwise retries
`account.buy` with the size shrunk to
`orig × (0.999 − 0.001·i)` (rounded down to 8 decimals).  Only
`InsufficientFunds` keeps the loop going; any other exception propagates;
a non-raising reply breaks with the confirmed state. -/
def handleInsufficientFunds (takerFee : ℚ) (now : ℤ)
    (exchReads : ℕ → List (Currency × ℚ)) (replies : ℕ → ServerReply)
    (st : AccountSt) (order : Order) :
    Except PyErr (Option OrderState × AccountSt × Order × List SubmitEvent) :=
  go 5 0 order.size st order []
where
  go (fuel : ℕ) (i : ℕ) (origSize : ℚ) (st : AccountSt) (o : Order)
      (evs : List SubmitEvent) :
      Except PyErr (Option OrderState × AccountSt × Order × List SubmitEvent) :=
    match fuel with
    | 0 => .ok (none, st, o, evs)
    | fuel + 1 =>
      let qc := o.productQuote
      match balGet st.balance qc with
      | none => .error .keyError
      | some prevOpt =>
        let st := { st with balance := getAccounts st.virtual st.balance (exchReads i) }
        match balGet st.balance qc with
        | none => .error .keyError
        | some curOpt =>
          match prevOpt, curOpt with
          | some prev, some cur =>
            if prev > cur then .ok (none, st, o, evs)
            else
              let o := { o with
                size := roundDown (origSize * ((999 : ℚ) / 1000 - (i : ℚ) / 1000)) }
              let res := orderAction takerFee now st o (replies i)
              let st := res.2.1
              let evs := if res.2.2 then evs ++ [⟨Side.buy, o⟩] else evs
              match res.1 with
              | .error .insufficientFunds => go fuel (i + 1) origSize st o evs
              | .error e => .error e
              | .ok os => .ok (some os, st, o, evs)
          | _, _ => .error .typeError

/-- `place_market_order(account, pair)` (run.py 440–477): rebuild the
pair's template as a one-shot market order, place it, then settle the pair
from the outcome (waiting out a pending reply, folding a settled fill, or
running the insufficient-funds fallback), and finally mark the pair
`done`.  BUG-faithful detail: the submission channel is chosen by
comparing the order's *type* string with `'buy'` — never true for a market
order — so the `Account.sell` wrapper is always invoked; the submitted
side is still the side carried in the order dict (see `SubmitEvent`). -/
def placeMarketOrder (takerFee : ℚ) (now : ℤ) (exch : List (Currency × ℚ))
    (book : OrderBook) (replies : ℕ → ServerReply)
    (waitFor : String → Option OrderState)
    (hifExch : ℕ → List (Currency × ℚ)) (hifReplies : ℕ → ServerReply)
    (accountPairs : List Pair) (st : AccountSt) (p : Pair) :
    Except PyErr (AccountSt × Pair × List SubmitEvent) := do
  match p.rule with
  | none => .error .attributeError
  | some r => do
    let tmpl := { r.orderTemplate with type := OrderType.market, postOnly := none }
    let res ← newOrder st.virtual st.balance exch book accountPairs p tmpl
    let order := res.1
    let st := { st with balance := res.2 }
    let channel := if orderTypeStr order.type = "buy" then Side.buy else Side.sell
    let res2 ← placeOrders takerFee now channel replies st { new := [order] }
    let st := res2.1
    let batch := res2.2.1
    let evs := res2.2.2
    let p :=
      match batch.pending with
      | os0 :: _ =>
        match waitFor os0.id with
        | some os1 => { p with settled := os1.settled }
        | none => p
      | [] => p
    let p :=
      match batch.done with
      | os0 :: _ =>
        if os0.settled then { pairUpdateBalance p os0 with settled := true }
        else p
      | [] => p
    match batch.error with
    | ent :: _ =>
      if ent.err = .insufficientFunds then
        match handleInsufficientFunds takerFee now hifExch hifReplies st order with
        | .error e =>
          if e.isOrderError then .ok (st, { p with status := some "done" }, evs)
          else .error e
        | .ok (rRes, st, _, evs2) =>
          let evs := evs ++ evs2
          match rRes with
          | none => .error .attributeError
          | some os =>
            match waitFor os.id with
            | some os1 =>
              let p := { p with settled := os1.settled }
              let p := if os1.settled then pairUpdateBalance p os1 else p
              .ok (st, { p with status := some "done" }, evs)
            | none => .ok (st, { p with status := some "done" }, evs)
      else .ok (st, { p with status := some "done" }, evs)
    | [] => .ok (st, { p with status := some "done" }, evs)

/-- One iteration of the cancellation loop of `update_pair_position`
(run.py 566–572): cancel the pending order and, when its awaited final
state is `done`, fold its fill into the pair's totals. -/
def cancelFoldStep (cancelWait : String → Option OrderState) (q : Pair)
    (o : OrderState) : Pair :=
  match cancelWait o.id with
  | some os => if os.status = "done" then pairUpdateBalance q os else q
  | none => q

/-- The cancellation loop of `update_pair_position` (run.py 566–572):
cancel every pending order of the pair, fold each completed (`done`)
awaited state into the pair's totals, then clear the pending list. -/
def cancelFoldPending (cancelWait : String → Option OrderState) (p : Pair) :
    Pair :=
  let p' := p.pendingOrders.foldl (cancelFoldStep cancelWait) p
  { p' with pendingOrders := [] }

/-- The filled size recovered from one cancelled order: its fill when the
awaited state is `done`, nothing otherwise. -/
def cancelContribution (cancelWait : String → Option OrderState)
    (o : OrderState) : ℚ :=
  match cancelWait o.id with
  | some os => if os.status = "done" then os.filledSize else 0
  | none => 0

/-- `update_pair_position(account, pair)` (run.py 552–581): drive the
limit cycle while the pair is not `done`; once the pair is `done` or its
validity window has expired without settlement, cancel and fold all
pending orders and — when the rule still permits — consume the
`market_fallback` flag and force settlement with a market order. -/
def updatePairPosition (takerFee : ℚ) (now : ℤ) (exch : List (Currency × ℚ))
    (book : OrderBook) (draws : ℕ → ℚ) (fuel : ℕ)
    (getOrder : String → GetOrderRes) (cancelWait : String → Option OrderState)
    (waitFor : String → Option OrderState) (limitReplies : ℕ → ServerReply)
    (marketReplies : ℕ → ServerReply) (hifExch : ℕ → List (Currency × ℚ))
    (hifReplies : ℕ → ServerReply) (accountPairs : List Pair)
    (st : AccountSt) (p : Pair) :
    Except PyErr (AccountSt × Pair × List SubmitEvent) := do
  match p.rule with
  | none => .error .attributeError
  | some r =>
    if r.orderTemplate.type = OrderType.limit then do
      let res ←
        if p.status ≠ some "done" then
          placeLimitOrder takerFee now exch book draws fuel getOrder cancelWait
            limitReplies accountPairs st p
        else .ok (st, p, [])
      let st := res.1
      let p := res.2.1
      let evs := res.2.2
      if p.settled then .ok (st, p, evs)
      else if p.status = some "done" ∨ now > p.expiration then
        let p := cancelFoldPending cancelWait p
        match p.rule with
        | none => .error .attributeError
        | some r2 =>
          if ¬ r2.marketFallback then .ok (st, p, evs)
          else
            let p := { p with rule := some { r2 with marketFallback := false } }
            let res2 ← placeMarketOrder takerFee now exch book marketReplies
              waitFor hifExch hifReplies accountPairs st p
            .ok (res2.1, res2.2.1, evs ++ res2.2.2)
      else .ok (st, p, evs)
    else if r.orderTemplate.type = OrderType.market then
      placeMarketOrder takerFee now exch book marketReplies waitFor hifExch
        hifReplies accountPairs st p
    else .ok (st, p, [])

/-! ## Concrete fixtures shared by witnesses and counterexamples -/

def ethEurBuyTemplate : OrderTemplate :=
  { type := .limit, side := .buy, productBase := "ETH", productQuote := "EUR"
    priceFormula := .insideBid, sizeFormula := .maxAccountBuySize
    postOnly := some false }

def ethEurSellTemplate : OrderTemplate :=
  { type := .limit, side := .sell, productBase := "ETH", productQuote := "EUR"
    priceFormula := .insideAsk, sizeFormula := .maxAccountSellSize
    postOnly := some false }

/-- The `bird|ETH-EUR` long rule of the shipped configuration. -/
def birdBuyRule : Rule :=
  { id := "bird|ETH-EUR", orderTemplate := ethEurBuyTemplate, ttl := 300
    orderTtl := 60, tweetTtl := 600, marketFallback := true, splitOrderSize := 0
    handles := ["birdpersonborg"], agreementHandles := [] }

/-- The `bird|ETH-EUR` short rule of the shipped configuration. -/
def birdSellRule : Rule := { birdBuyRule with orderTemplate := ethEurSellTemplate }

def tweet5 : Tweet :=
  { id := 5, handle := "birdpersonborg", text := "ETHEUR long", createdTs := 0
    position := some "long" }

def tweet7 : Tweet := { tweet5 with id := 7 }

/-- A pair mid-way through a limit cycle: target 2 ETH, 1 ETH filled,
signal accepted at t=0 (tweet id 5), window expires at t=300. -/
def midflightPair : Pair :=
  { productBase := "ETH", productQuote := "EUR", pendingOrders := [], size := 2
    filledSize := 1, executedValue := 200, rule := some birdBuyRule
    status := none, settled := false, position := none, expiration := 300
    twitter := [("birdpersonborg", tweet5)], updated := false, errors := 0
    previous := none }

/-! ## Claim theorems -/

/-- **C10** (confirmed).  For every `TwitterState` whose per-handle cursor
map has no entry for the tweet's handle, `TwitterState.update` raises
`AttributeError`: the `KeyError` fallback binds `current` to the `Tweet`
class object, which has no `id` attribute, so the cursor for a previously
unseen handle is never recorded through this method. -/
theorem twitterStateUpdate_unseen_handle_raises (st : TwitterState) (t : Tweet)
    (h : assocGet st.handles t.handle = none) :
    twitterStateUpdate st t = .error .attributeError := by
  simp [twitterStateUpdate, h, StoredTweet.getId]

theorem twitterStateUpdate_unseen_handle_raises_witness :
    twitterStateUpdate ⟨[]⟩ tweet5 = .error .attributeError :=
  twitterStateUpdate_unseen_handle_raises ⟨[]⟩ tweet5 rfl

/-- **C9** (confirmed).  A signal whose sequence number is ≤ the sequence
number of the last accepted signal for the same handle leaves the pair
completely unchanged: `Pair.update` compares the incoming id against the
tweet *stored* for the handle and returns before any mutation.  The
hypothesis `accId ≤ t0.id` records the code invariant that the stored
tweet's id is at least the last accepted id (every accepted tweet is
stored, and the stored id only grows), so `t.id ≤ accId` forces the early
return. -/
theorem pairUpdate_old_seq_ignored (now accId : ℤ) (r : Rule) (t t0 : Tweet)
    (p : Pair) (hstored : assocGet p.twitter t.handle = some t0)
    (hmono : accId ≤ t0.id) (ht : t.id ≤ accId) :
    pairUpdate now r t p = p := by
  unfold pairUpdate
  simp [hstored, le_trans ht hmono]

theorem pairUpdate_old_seq_ignored_witness :
    pairUpdate 1000 birdBuyRule { tweet5 with id := 4 } midflightPair =
      midflightPair :=
  pairUpdate_old_seq_ignored 1000 5 birdBuyRule { tweet5 with id := 4 } tweet5
    midflightPair (by decide) (by decide) (by decide)

/-- **C6** (corrected).  A signal that passes the ordering and agreement
checks but is already older than the rule's validity window is *ignored*,
not marked `done-unsettled`: `Pair.update` returns after storing the tweet
in the per-handle map, leaving status, settled flag and every other field
unchanged.  (A brand-new pair shows `status='done'`, `settled=False` only
because `Pair.__init__` starts that way.)  No order is attempted, as the
claim says. -/
theorem pairUpdate_stale_tweet_leaves_state (now : ℤ) (r : Rule) (t : Tweet)
    (p : Pair)
    (hord : ∀ t0, assocGet p.twitter t.handle = some t0 → t0.id < t.id)
    (hagree : r.agreementHandles = [] ∨
      agreementReached (assocSet p.twitter t.handle (stampPosition r t))
        (stampPosition r t) r.agreementHandles = true)
    (hstale : now > t.createdTs + r.tweetTtl) :
    pairUpdate now r t p =
      { p with twitter := assocSet p.twitter t.handle (stampPosition r t) } := by
  have hgo : pairUpdate.go now r t p =
      { p with twitter := assocSet p.twitter t.handle (stampPosition r t) } := by
    unfold pairUpdate.go
    rcases hagree with hempty | hreached
    · simp [hempty, hstale]
    · simp [hreached, hstale]
  unfold pairUpdate
  cases hl : assocGet p.twitter t.handle with
  | none => simpa [hl] using hgo
  | some t0 =>
    have := hord t0 hl
    simpa [hl, not_le.mpr this] using hgo

theorem pairUpdate_stale_tweet_leaves_state_witness :
    pairUpdate 1000 birdBuyRule tweet7 midflightPair =
      { midflightPair with
        twitter := assocSet midflightPair.twitter tweet7.handle
          (stampPosition birdBuyRule tweet7) } :=
  pairUpdate_stale_tweet_leaves_state 1000 birdBuyRule tweet7 midflightPair
    (by decide) (by decide) (by decide)

/-- **C6** counterexample.  A pair mid-way through a limit cycle
(`status = None`) that receives a stale but otherwise acceptable signal
(id 7 > stored id 5, no agreement handles, `now = 1000 >
created_ts + tweet_ttl = 600`) is *not* marked done-unsettled: its status
stays `None`, contradicting the claim that `Pair.update` marks the pair
`status='done'`, `settled=False` immediately. -/
theorem pairUpdate_stale_tweet_counterexample :
    ¬ ((pairUpdate 1000 birdBuyRule tweet7 midflightPair).status = some "done" ∧
       (pairUpdate 1000 birdBuyRule tweet7 midflightPair).settled = false) := by
  decide

/-- Inversion of a successful capture on a virtual account: the captured
currency had some available amount `v`, and the post-capture balance is
exactly `v - cap` at that entry. -/
theorem captureBalanceForOrder_ok_inv (fee : ℚ) (bal : Balance) (o : Order)
    (bal1 : Balance) (c : Currency) (cap : ℚ)
    (h : captureBalanceForOrder true fee bal o = .ok (bal1, some c, some cap)) :
    ∃ v, balGet bal c = some (some v) ∧
      bal1 = balSet bal c (some (v - cap)) := by
  cases hside : o.side with
  | buy =>
    cases hpr : o.price with
    | none => simp [captureBalanceForOrder, hside, hpr] at h
    | some pr =>
      cases hb : balGet bal o.productQuote with
      | none => simp [captureBalanceForOrder, hside, hpr, hb] at h
      | some avail? =>
        cases avail? with
        | none => simp [captureBalanceForOrder, hside, hpr, hb] at h
        | some avail =>
          simp only [captureBalanceForOrder, hside, hpr, hb, Bool.not_true,
            not_true_eq_false, if_false, ite_false] at h
          cases hpo : o.postOnly <;> simp only [hpo, ite_true, ite_false,
            Bool.false_eq_true, Bool.true_eq_false, if_true, if_false] at h <;>
          · split at h
            · exact absurd h (by simp)
            · simp only [Except.ok.injEq, Prod.mk.injEq, Option.some.injEq] at h
              obtain ⟨h1, h2, h3⟩ := h
              exact ⟨avail, h2 ▸ hb, by rw [← h2, ← h3, ← h1]⟩
  | sell =>
    cases hb : balGet bal o.productBase with
    | none => simp [captureBalanceForOrder, hside, hb] at h
    | some avail? =>
      cases avail? with
      | none => simp [captureBalanceForOrder, hside, hb] at h
      | some avail =>
        simp only [captureBalanceForOrder, hside, hb, Bool.not_true,
          not_true_eq_false, if_false, ite_false] at h
        split at h
        · exact absurd h (by simp)
        · simp only [Except.ok.injEq, Prod.mk.injEq, Option.some.injEq] at h
          obtain ⟨h1, h2, h3⟩ := h
          exact ⟨avail, h2 ▸ hb, by rw [← h2, ← h3, ← h1]⟩

/-- **C1** (confirmed).  On a virtual account, when the capture succeeds
and the submission then fails — the exchange call raises or the reply maps
to an error — the `finally` block of `_order_action` (reached via
`Account.buy`/`Account.sell`) refunds exactly the captured amount, so the
balance entry for the captured currency ends at precisely its pre-capture
value, whatever the capture amount was. -/
theorem orderAction_failed_submit_restores_balance (fee : ℚ) (now : ℤ)
    (st : AccountSt) (o : Order) (reply : ServerReply) (bal1 : Balance)
    (c : Currency) (cap : ℚ) (e : PyErr)
    (hvirt : st.virtual = true)
    (hcap : captureBalanceForOrder st.virtual fee st.balance o =
      .ok (bal1, some c, some cap))
    (hfail : submitResult reply = .error e) :
    balGet (orderAction fee now st o reply).2.1.balance c =
      balGet st.balance c := by
  rw [hvirt] at hcap
  obtain ⟨v, hv, hbal1⟩ := captureBalanceForOrder_ok_inv fee st.balance o bal1 c
    cap hcap
  unfold orderAction
  rw [hvirt, hcap, hfail]
  simp only [refundActive, hbal1, balGet_balSet_same]
  rw [hv]
  have : v - cap + cap = v := by ring
  rw [this]

/-- A virtual account holding 10 EUR and 1 ETH. -/
def c1State : AccountSt :=
  { balance := [("EUR", some 10), ("ETH", some 1)], pendingOrders := []
    unconfirmedOrders := [], doneOrders := [], virtual := true }

/-- A non-post-only limit buy of 0.05 ETH at 100 EUR: the capture is
`0.05 × 100 × 1.003 = 5.015` EUR. -/
def c1Order : Order :=
  { type := .limit, side := .buy, productBase := "ETH", productQuote := "EUR"
    price := some 100, size := 1 / 20, postOnly := false }

theorem orderAction_failed_submit_restores_balance_witness :
    balGet (orderAction (3 / 1000) 0 c1State c1Order .noReply).2.1.balance
      "EUR" = balGet c1State.balance "EUR" :=
  orderAction_failed_submit_restores_balance (3 / 1000) 0 c1State c1Order
    .noReply [("EUR", some (997 / 200)), ("ETH", some 1)] "EUR" (1003 / 200)
    .orderError rfl
    (by norm_num [captureBalanceForOrder, c1State, c1Order, balGet, balSet])
    rfl

/-- **C2** (confirmed).  At startup reconciliation, for an account holding
an unconfirmed order for which no listed server order matches (every
candidate either carries an id already known as pending/done or fails the
product/side/type/size match), the captured amount is added back to the
account's balance unconditionally — the only effects are popping the
unconfirmed order and crediting `captured` to the captured currency.
An account with no unconfirmed order is left untouched (`continue`).
Reason `spec-modelled`: `ActiveOrder` and `orders_match` are referenced
from `src/` but defined outside it; both are modelled from the spec and
their use sites (see their doc comments). -/
theorem reconcile_no_match_refunds (st : AccountSt)
    (serverOrders : List OrderState) (knownIds : List String)
    (l : List ActiveOrder) (a : ActiveOrder) (c : Currency) (cap v : ℚ)
    (hunconf : st.unconfirmedOrders = l ++ [a])
    (hcur : a.currency = some c) (hcap : a.captured = some cap)
    (hbal : balGet st.balance c = some (some v))
    (hnomatch : ∀ so ∈ serverOrders,
      so.id ∈ knownIds ∨ ordersMatch so a.order = false) :
    reconcileUnconfirmed st serverOrders knownIds =
      .ok ({ st with unconfirmedOrders := l
                     balance := balSet st.balance c (some (v + cap)) }, none) := by
  have hlast : st.unconfirmedOrders.getLast? = some a := by
    rw [hunconf]; simp
  have hdrop : st.unconfirmedOrders.dropLast = l := by
    rw [hunconf]; simp
  have hfind : findLostOrder knownIds serverOrders a = none := by
    unfold findLostOrder
    rw [List.find?_eq_none]
    intro so hso
    rcases hnomatch so hso with hk | hm
    · simp [hk]
    · simp [hm]
  simp only [reconcileUnconfirmed, hlast, hdrop, hfind, refundActive, hcur,
    hcap, hbal]

/-- The unconfirmed in-flight order of the C2 witness: the 5.015 EUR
capture of `c1Order`, never confirmed. -/
def c2Active : ActiveOrder :=
  { order := c1Order, currency := some "EUR", captured := some (1003 / 200)
    timestamp := 0, orderState := none }

def c2State : AccountSt := { c1State with unconfirmedOrders := [c2Active] }

/-- A listed server order that does not match the lost order (sell side,
different size). -/
def c2ServerOrder : OrderState :=
  { id := "srv1", type := .limit, side := .sell, productBase := "ETH"
    productQuote := "EUR", price := 100, size := 1, filledSize := 0
    executedValue := 0, fillFees := 0, status := "pending", settled := false
    timestamp := 0 }

theorem reconcile_no_match_refunds_witness :
    reconcileUnconfirmed c2State [c2ServerOrder] ["known1"] =
      .ok ({ c2State with unconfirmedOrders := []
                          balance := balSet c2State.balance "EUR"
                            (some (10 + 1003 / 200)) }, none) :=
  reconcile_no_match_refunds c2State [c2ServerOrder] ["known1"] [] c2Active
    "EUR" (1003 / 200) 10 rfl rfl rfl rfl
    (fun so hso => by
      rw [List.mem_singleton] at hso
      subst hso
      exact Or.inr rfl)

/-- **C4** (code_bug).  Whenever an order actually exceeds the split
ceiling (`main_order.size > max_size`), `split_order` evaluates
`max_size * 0.8` — a `Decimal` multiplied by a `float` literal — which
raises `TypeError` before `split_amount` is ever called; no sub-orders
are produced at all, against the spec's split behaviour (§4.4, §8).
Evaluated here at a 2-ETH order with a 1-ETH ceiling. -/
theorem splitOrder_raises_typeerror :
    splitOrder (fun _ => 0) 100 5 { c1Order with size := 2 } 1 =
      .error .typeError := by
  norm_num [splitOrder, pyMul]

/-- A successful `calc_sell_size` result is nonnegative whenever the
consulted balance entries are nonnegative and any fixed template size is
nonnegative. -/
theorem calcSellSize_nonneg (bal : Balance) (p : Pair) (s : ℚ)
    (h : calcSellSize bal p = .ok s)
    (hbal : ∀ w, balGet bal p.productBase = some (some w) → 0 ≤ w)
    (hfix : ∀ r q, p.rule = some r →
      r.orderTemplate.sizeFormula = .fixed q → 0 ≤ q) :
    0 ≤ s := by
  cases hb : balGet bal p.productBase with
  | none => simp [calcSellSize, hb] at h
  | some mas =>
    cases hr : p.rule with
    | none => simp [calcSellSize, hb, hr] at h
    | some r =>
      cases hf : r.orderTemplate.sizeFormula with
      | fixed q =>
        simp only [calcSellSize, hb, hr, hf, Except.ok.injEq] at h
        exact h ▸ roundDown_nonneg 8 (hfix r q hr hf)
      | maxAccountSellSize =>
        cases mas with
        | none => simp [calcSellSize, hb, hr, hf] at h
        | some a =>
          simp only [calcSellSize, hb, hr, hf, Except.ok.injEq] at h
          exact h ▸ roundDown_nonneg 8 (hbal a hb)
      | maxAccountBuySize => simp [calcSellSize, hb, hr, hf] at h
      | splitSize => simp [calcSellSize, hb, hr, hf] at h

/-- A successful `calc_buy_size` result is nonnegative whenever the quote
balance entry is nonnegative, the resolved price is nonnegative, and any
fixed template size is nonnegative (the formula consulted belongs to the
last pair of the account map, due to the source's loop-variable
shadowing). -/
theorem calcBuySize_nonneg (bal : Balance) (accountPairs : List Pair)
    (p : Pair) (price s : ℚ)
    (h : calcBuySize bal accountPairs p price = .ok s)
    (hbal : ∀ w, balGet bal p.productQuote = some (some w) → 0 ≤ w)
    (hpr : 0 ≤ price)
    (hfix : ∀ r q, (accountPairs.getLast?.getD p).rule = some r →
      r.orderTemplate.sizeFormula = .fixed q → 0 ≤ q) :
    0 ≤ s := by
  cases hsp : shortPairsOf p.productQuote accountPairs with
  | error e => simp [calcBuySize, hsp, Bind.bind, Except.bind] at h
  | ok shorts =>
    cases hr : (accountPairs.getLast?.getD p).rule with
    | none => simp [calcBuySize, hsp, Bind.bind, Except.bind, hr] at h
    | some rLast =>
      cases hf : rLast.orderTemplate.sizeFormula with
      | splitSize =>
        cases hb : balGet bal p.productQuote with
        | none =>
          simp [calcBuySize, hsp, Bind.bind, Except.bind, hr, hf, hb] at h
        | some avail? =>
          cases avail? with
          | none =>
            simp [calcBuySize, hsp, Bind.bind, Except.bind, hr, hf, hb] at h
          | some avail =>
            by_cases hn : shorts.length = 0
            · simp [calcBuySize, hsp, Bind.bind, Except.bind, hr, hf, hb,
                hn] at h
            · by_cases hp0 : price = 0
              · simp [calcBuySize, hsp, Bind.bind, Except.bind, hr, hf, hb,
                  hn, hp0] at h
              · simp [calcBuySize, hsp, Bind.bind, Except.bind, hr, hf, hb,
                  hn, hp0] at h
                subst h
                refine roundDown_nonneg 8 ?_
                have havail := hbal avail hb
                have hprpos : 0 < price := lt_of_le_of_ne hpr (Ne.symm hp0)
                positivity
      | fixed q =>
        cases hb : balGet bal p.productQuote with
        | none =>
          simp [calcBuySize, hsp, Bind.bind, Except.bind, hr, hf, hb] at h
        | some avail? =>
          cases avail? with
          | none =>
            simp [calcBuySize, hsp, Bind.bind, Except.bind, hr, hf, hb] at h
          | some avail =>
            by_cases hp0 : price = 0
            · simp [calcBuySize, hsp, Bind.bind, Except.bind, hr, hf, hb,
                hp0] at h
            · simp [calcBuySize, hsp, Bind.bind, Except.bind, hr, hf, hb,
                hp0] at h
              subst h
              exact roundDown_nonneg 8 (hfix rLast q hr hf)
      | maxAccountBuySize =>
        cases hb : balGet bal p.productQuote with
        | none =>
          simp [calcBuySize, hsp, Bind.bind, Except.bind, hr, hf, hb] at h
        | some avail? =>
          cases avail? with
          | none =>
            simp [calcBuySize, hsp, Bind.bind, Except.bind, hr, hf, hb] at h
          | some avail =>
            by_cases hp0 : price = 0
            · simp [calcBuySize, hsp, Bind.bind, Except.bind, hr, hf, hb,
                hp0] at h
            · simp [calcBuySize, hsp, Bind.bind, Except.bind, hr, hf, hb,
                hp0] at h
              subst h
              refine roundDown_nonneg 8 ?_
              have havail := hbal avail hb
              have hprpos : 0 < price := lt_of_le_of_ne hpr (Ne.symm hp0)
              positivity
      | maxAccountSellSize =>
        cases hb : balGet bal p.productQuote with
        | none =>
          simp [calcBuySize, hsp, Bind.bind, Except.bind, hr, hf, hb] at h
        | some avail? =>
          cases avail? with
          | none =>
            simp [calcBuySize, hsp, Bind.bind, Except.bind, hr, hf, hb] at h
          | some avail =>
            by_cases hp0 : price = 0
            · simp [calcBuySize, hsp, Bind.bind, Except.bind, hr, hf, hb,
                hp0] at h
            · simp [calcBuySize, hsp, Bind.bind, Except.bind, hr, hf, hb,
                hp0] at h

/-- **C8** (corrected).  Building a concrete `Order` from a template
yields a price equal to the template's price formula evaluated against
the live order book and rounded *down* to the product's configured
decimal precision — exactly as claimed — but the size is only guaranteed
*nonnegative*, not strictly positive: a zero balance yields a size-0
order (the callers guard against it: `split_and_place_limit_order`
refuses to place size-0 orders).  Hypotheses: the refreshed balance
entries, the resolved price and any fixed template size are
nonnegative. -/
theorem newOrder_price_rounded_size_nonneg (virtual : Bool) (bal : Balance)
    (exch : List (Currency × ℚ)) (book : OrderBook)
    (accountPairs : List Pair) (p : Pair) (tmpl : OrderTemplate)
    (o : Order) (bal' : Balance)
    (h : newOrder virtual bal exch book accountPairs p tmpl = .ok (o, bal'))
    (hbal : ∀ c w, balGet (getAccounts virtual bal exch) c = some (some w) →
      0 ≤ w)
    (hpr : 0 ≤ evalPriceFormula tmpl.priceFormula book.bid book.ask)
    (hfix : ∀ (pp : Pair) r q, (pp = p ∨ pp ∈ accountPairs) →
      pp.rule = some r → r.orderTemplate.sizeFormula = .fixed q → 0 ≤ q) :
    o.price = some (roundDown (evalPriceFormula tmpl.priceFormula book.bid
      book.ask) (pricePrecision tmpl.productBase tmpl.productQuote)) ∧
    0 ≤ o.size := by
  cases hside : tmpl.side with
  | buy =>
    cases hc : calcBuySize (getAccounts virtual bal exch) accountPairs p
        (evalPriceFormula tmpl.priceFormula book.bid book.ask) with
    | error e => simp [newOrder, hside, hc, Bind.bind, Except.bind] at h
    | ok s =>
      simp only [newOrder, hside, hc, Bind.bind, Except.bind,
        Except.ok.injEq, Prod.mk.injEq] at h
      obtain ⟨ho, _⟩ := h
      constructor
      · rw [← ho]
      · rw [← ho]
        refine calcBuySize_nonneg _ accountPairs p _ s hc
          (fun w hw => hbal p.productQuote w hw) hpr ?_
        intro r q hr hq
        refine hfix (accountPairs.getLast?.getD p) r q ?_ hr hq
        cases hl : accountPairs.getLast? with
        | none => left; rfl
        | some q' =>
          right
          have hmem : q' ∈ accountPairs.getLast? := by rw [hl]; rfl
          obtain ⟨hne, heq⟩ := List.mem_getLast?_eq_getLast hmem
          show q' ∈ accountPairs
          simpa [← heq] using List.getLast_mem hne
  | sell =>
    cases hc : calcSellSize (getAccounts virtual bal exch) p with
    | error e => simp [newOrder, hside, hc, Bind.bind, Except.bind] at h
    | ok s =>
      simp only [newOrder, hside, hc, Bind.bind, Except.bind,
        Except.ok.injEq, Prod.mk.injEq] at h
      obtain ⟨ho, _⟩ := h
      constructor
      · rw [← ho]
      · rw [← ho]
        exact calcSellSize_nonneg _ p s hc
          (fun w hw => hbal p.productBase w hw)
          (fun r q hr hq => hfix p r q (Or.inl rfl) hr hq)

/-- A sell-side pair whose rule is the shipped short rule. -/
def c8Pair : Pair := { midflightPair with rule := some birdSellRule }

theorem newOrder_price_rounded_size_nonneg_witness :
    (newOrder true [("ETH", some 1), ("EUR", some 10)] [] ⟨100, 101⟩ []
        c8Pair ethEurSellTemplate).toOption.map (fun x => x.1.size) =
      some (roundDown 1 8) ∧
    0 ≤ roundDown (1 : ℚ) 8 := by
  constructor
  · rfl
  · exact (newOrder_price_rounded_size_nonneg true
      [("ETH", some 1), ("EUR", some 10)] [] ⟨100, 101⟩ [] c8Pair
      ethEurSellTemplate _ _ rfl
      (by
        intro c w hw
        simp only [getAccounts, List.foldl_nil] at hw
        simp only [balGet] at hw
        split at hw
        · cases hw; norm_num
        · split at hw
          · cases hw; norm_num
          · cases hw)
      (by norm_num [evalPriceFormula, ethEurSellTemplate])
      (by
        intro pp r q hpp hr hq
        rcases hpp with h | h
        · subst h
          rw [show c8Pair.rule = some birdSellRule from rfl] at hr
          cases hr
          simp [birdSellRule, ethEurSellTemplate] at hq
        · simp at h)).2

/-- **C8** counterexample.  With a zero ETH balance, building the shipped
sell template yields a size-0 order — not a size strictly greater than
zero as the claim states (the price is still correctly rounded). -/
theorem newOrder_zero_size_counterexample :
    ∃ o bal',
      newOrder true [("ETH", some 0), ("EUR", some 0)] [] ⟨100, 101⟩ []
        c8Pair ethEurSellTemplate = .ok (o, bal') ∧ o.size = 0 := by
  refine ⟨_, _, rfl, ?_⟩
  norm_num [roundDown]

/-- `check_error_orders` never touches the pair's error counter: every
loop branch either records the error class or cancels and folds fills. -/
theorem checkErrorStep_errors (cw : String → Option OrderState)
    (acc : Pair × Option PyErr) (ent : ErrEntry) :
    (checkErrorStep cw acc ent).1.errors = acc.1.errors := by
  unfold checkErrorStep
  split
  · rfl
  split
  · rfl
  cases ent with
  | fromOrder o e => rfl
  | fromState os e =>
    cases h : cw os.id with
    | none => simp [h]
    | some st' => simp [h, pairUpdateBalance]

theorem checkErrorOrders_preserves_errors (cw : String → Option OrderState)
    (p : Pair) (batch : OrderBatch) :
    (checkErrorOrders cw p batch).1.errors = p.errors := by
  unfold checkErrorOrders
  suffices h : ∀ (l : List ErrEntry) (acc : Pair × Option PyErr),
      (l.foldl (checkErrorStep cw) acc).1.errors = acc.1.errors by
    exact h batch.error (p, none)
  intro l
  induction l with
  | nil => intro acc; rfl
  | cons e rest ih =>
    intro acc
    rw [List.foldl_cons, ih, checkErrorStep_errors]

/-- When every polled pending order resolves to a `done` state, the
`check_pending_orders` loop moves all of them (resolved) to `done`. -/
theorem checkPendingOrders_go_all_done (getOrder : String → GetOrderRes)
    (resolve : OrderState → OrderState) :
    ∀ (l : List OrderState) (batch : OrderBatch),
    (∀ os ∈ l, getOrder os.id = .got (resolve os)) →
    (∀ os ∈ l, (resolve os).status = "done") →
    checkPendingOrders.go getOrder batch l =
      .ok { batch with done := batch.done ++ l.map resolve }
  | [], batch, _, _ => by simp [checkPendingOrders.go]
  | o :: rest, batch, hres, hdone => by
    have h1 := hres o (by simp)
    have h2 := hdone o (by simp)
    rw [checkPendingOrders.go, h1]
    simp only [h2, if_pos]
    rw [checkPendingOrders_go_all_done getOrder resolve rest _
      (fun os hos => hres os (by simp [hos]))
      (fun os hos => hdone os (by simp [hos]))]
    simp

/-- The running counts of the `check_done_orders` loop over a batch of
exclusively done-but-unsettled orders: each order bumps the error counter
by one (the other state-machine fields are untouched), and the
too-many-errors flag fires exactly when the final counter exceeds 3. -/
theorem checkDoneStep_foldl_count :
    ∀ (D : List OrderState) (p : Pair) (flag : Bool),
    (∀ os ∈ D, os.settled = false) →
    (D.foldl checkDoneStep (p, flag)).1.errors = p.errors + D.length ∧
    (D.foldl checkDoneStep (p, flag)).2 =
      (flag || (decide (0 < D.length) && decide (p.errors + D.length > 3))) ∧
    (D.foldl checkDoneStep (p, flag)).1.size = p.size ∧
    (D.foldl checkDoneStep (p, flag)).1.status = p.status ∧
    (D.foldl checkDoneStep (p, flag)).1.settled = p.settled
  | [], p, flag, _ => by simp
  | os :: rest, p, flag, hall => by
    have hs : os.settled = false := hall os (by simp)
    have hrest : ∀ o ∈ rest, o.settled = false :=
      fun o ho => hall o (by simp [ho])
    have hstep : checkDoneStep (p, flag) os =
        ({ pairUpdateBalance p os with errors := p.errors + 1 },
         if p.errors + 1 > 3 then true else flag) := by
      simp [checkDoneStep, hs, pairUpdateBalance]
    obtain ⟨ih1, ih2, ih3, ih4, ih5⟩ := checkDoneStep_foldl_count rest
      { pairUpdateBalance p os with errors := p.errors + 1 }
      (if p.errors + 1 > 3 then true else flag) hrest
    rw [List.foldl_cons, hstep]
    refine ⟨by rw [ih1]; simp [pairUpdateBalance]; omega, ?_,
      by rw [ih3]; simp [pairUpdateBalance], by rw [ih4]; simp [pairUpdateBalance],
      by rw [ih5]; simp [pairUpdateBalance]⟩
    rw [ih2]
    simp only [pairUpdateBalance, List.length_cons]
    by_cases hc : p.errors + 1 > 3
    · have hc' : p.errors + (rest.length + 1) > 3 := by omega
      simp [hc, hc']
    · have hle : p.errors + 1 ≤ 3 := not_lt.mp hc
      have heq : (0 < rest.length ∧ p.errors + 1 + rest.length > 3) ↔
          (0 < rest.length + 1 ∧ p.errors + (rest.length + 1) > 3) := by omega
      simp only [if_neg hc, ← Bool.decide_and]
      congr 1
      exact decide_eq_decide.mpr heq

/-- **C7** (corrected).  A generic placement error is recorded against the
failing order (its `error` attribute) and triggers a cancel attempt, but
it does **not** increment the pair's error counter — `check_error_orders`
leaves `pair.errors` untouched on every path (second conjunct).  The
counter is incremented by done-but-unsettled orders in
`check_done_orders`, and `place_limit_order` aborts the pair (status
`'done'`, not settled) only once the counter *exceeds* three, i.e. on the
fourth accumulated error since the last accepted signal (first conjunct:
a pair whose pending orders all come back done-unsettled is aborted
exactly when `errors + #orders > 3`). -/
theorem placeLimitOrder_error_accounting (takerFee : ℚ) (now : ℤ)
    (exch : List (Currency × ℚ)) (book : OrderBook) (draws : ℕ → ℚ)
    (fuel : ℕ) (getOrder : String → GetOrderRes)
    (cancelWait : String → Option OrderState) (replies : ℕ → ServerReply)
    (accountPairs : List Pair) (st : AccountSt) (p : Pair) (r : Rule)
    (resolve : OrderState → OrderState)
    (hrule : p.rule = some r)
    (hres : ∀ os ∈ p.pendingOrders, getOrder os.id = .got (resolve os))
    (hdone : ∀ os ∈ p.pendingOrders, (resolve os).status = "done")
    (hunsettled : ∀ os ∈ p.pendingOrders, (resolve os).settled = false)
    (hsize : p.size = 0) (hne : p.pendingOrders ≠ [])
    (hcount : p.errors + p.pendingOrders.length > 3) :
    (∃ p', placeLimitOrder takerFee now exch book draws fuel getOrder
        cancelWait replies accountPairs st p = .ok (st, p', []) ∧
      p'.status = some "done" ∧ p'.settled = false ∧
      p'.errors = p.errors + p.pendingOrders.length ∧
      p'.pendingOrders = []) ∧
    (∀ (cw : String → Option OrderState) (q : Pair) (batch : OrderBatch),
      (checkErrorOrders cw q batch).1.errors = q.errors) := by
  refine ⟨?_, checkErrorOrders_preserves_errors⟩
  have hmap : ∀ os ∈ p.pendingOrders.map resolve, os.settled = false := by
    intro os hos
    obtain ⟨o, ho, rfl⟩ := List.mem_map.mp hos
    exact hunsettled o ho
  obtain ⟨he, hfl, hsz, hstt, hsl⟩ :=
    checkDoneStep_foldl_count (p.pendingOrders.map resolve) p false hmap
  have hcp : checkPendingOrders getOrder { pending := p.pendingOrders } =
      .ok { new := [], done := p.pendingOrders.map resolve, pending := []
            error := [] } := by
    unfold checkPendingOrders
    rw [checkPendingOrders_go_all_done getOrder resolve p.pendingOrders _
      hres hdone]
    rfl
  have hflag : (List.foldl checkDoneStep (p, false)
      (p.pendingOrders.map resolve)).2 = true := by
    rw [hfl]
    simp only [List.length_map, Bool.false_or, Bool.and_eq_true]
    exact ⟨decide_eq_true (List.length_pos.mpr hne), decide_eq_true hcount⟩
  unfold placeLimitOrder
  rw [hrule]
  simp only [Bind.bind, Except.bind, hcp, checkExpiredOrders, List.foldl_nil,
    checkDoneOrders, checkErrorOrders, List.length_map]
  rw [hflag]
  simp only [List.foldl_nil, if_true, ite_true]
  have hc1 : ¬ ((List.foldl checkDoneStep (p, false)
      (p.pendingOrders.map resolve)).1.size ≠ 0 ∧
      (List.foldl checkDoneStep (p, false)
        (p.pendingOrders.map resolve)).1.filledSize ≥
      (List.foldl checkDoneStep (p, false)
        (p.pendingOrders.map resolve)).1.size) := by
    rw [hsz, hsize]
    simp
  rw [if_neg hc1]
  simp only [if_pos rfl, reduceIte]
  refine ⟨_, rfl, rfl, rfl, ?_, rfl⟩
  rw [he]
  simp

/-- A pending server order of the C7 scenario. -/
def c7Pending : OrderState :=
  { c2ServerOrder with id := "p1", side := .buy, status := "pending" }

/-- `c7Pending` as polled back: done but not settled. -/
def c7Resolved : OrderState := { c7Pending with status := "done", settled := false }

/-- A pair with three errors already accumulated and one in-flight order. -/
def c7Pair : Pair :=
  { midflightPair with
    size := 0
    filledSize := 0
    executedValue := 0
    errors := 3
    pendingOrders := [c7Pending] }

theorem placeLimitOrder_error_accounting_witness :
    (∃ p', placeLimitOrder 0 0 [] ⟨100, 101⟩ (fun _ => 0) 5
        (fun _ => .got c7Resolved) (fun _ => none) (fun _ => .noReply) []
        c1State c7Pair = .ok (c1State, p', []) ∧
      p'.status = some "done" ∧ p'.settled = false ∧
      p'.errors = c7Pair.errors + c7Pair.pendingOrders.length ∧
      p'.pendingOrders = []) ∧
    (∀ (cw : String → Option OrderState) (q : Pair) (batch : OrderBatch),
      (checkErrorOrders cw q batch).1.errors = q.errors) :=
  placeLimitOrder_error_accounting 0 0 [] ⟨100, 101⟩ (fun _ => 0) 5
    (fun _ => .got c7Resolved) (fun _ => none) (fun _ => .noReply) []
    c1State c7Pair birdBuyRule (fun _ => c7Resolved) rfl
    (fun _ _ => rfl) (fun _ _ => rfl) (fun _ _ => rfl) rfl
    (by simp [c7Pair]) (by decide)

/-- **C7** counterexample.  Three done-but-unsettled orders folded into a
fresh pair accumulate exactly three errors yet do **not** trigger the
abort flag (the code tests `errors > 3`); and a generic placement error
processed by `check_error_orders` leaves the error counter untouched —
both against the claim that each generic placement error increments the
counter and that three accumulated errors abort the pair. -/
theorem checkDoneOrders_three_errors_no_abort_counterexample :
    (checkDoneOrders midflightPair
      { done := [{ c2ServerOrder with id := "d1", status := "done" },
                 { c2ServerOrder with id := "d2", status := "done" },
                 { c2ServerOrder with id := "d3", status := "done" }] }).1.errors
      = 3 ∧
    (checkDoneOrders midflightPair
      { done := [{ c2ServerOrder with id := "d1", status := "done" },
                 { c2ServerOrder with id := "d2", status := "done" },
                 { c2ServerOrder with id := "d3", status := "done" }] }).2.2
      = false ∧
    (checkErrorOrders (fun _ => none) midflightPair
      { error := [.fromOrder c1Order .orderError] }).1.errors = 0 :=
  ⟨rfl, rfl, rfl⟩

/-- Refreshing against a single-entry exchange report caps the tracked
amount at the reported amount (virtual account, entry present). -/
theorem getAccounts_single (bal : Balance) (qc : Currency) (b x : ℚ)
    (h : balGet bal qc = some (some b)) :
    getAccounts true bal [(qc, x)] = balSet bal qc (some (min b x)) := by
  simp [getAccounts, h]

/-- The size `handle_insufficient_funds` submits on attempt `j`:
`orig × (0.999 − 0.001·j)`, rounded down to 8 decimals. -/
def hifSize (S : ℚ) (j : ℕ) : ℚ :=
  roundDown (S * ((999 : ℚ) / 1000 - (j : ℚ) / 1000))

/-- A buy order with the given size (the mutable order object the
insufficient-funds fallback keeps re-sizing). -/
def hifOrderSz (ot : OrderType) (bc qc : Currency) (pr sz : ℚ) : Order :=
  { type := ot, side := .buy, productBase := bc, productQuote := qc
    price := some pr, size := sz, postOnly := true }

/-- The order `handle_insufficient_funds` submits on attempt `j` (the same
order object, its `size` re-assigned). -/
def hifOrder (ot : OrderType) (bc qc : Currency) (pr S : ℚ) (j : ℕ) : Order :=
  hifOrderSz ot bc qc pr (hifSize S j)

theorem hifSize_le (S : ℚ) (hS : 0 ≤ S) (j : ℕ) : hifSize S j ≤ S := by
  refine le_trans (roundDown_le 8) ?_
  rcases le_or_lt 0 ((999 : ℚ) / 1000 - (j : ℚ) / 1000) with h2 | h2
  · have h1 : (999 : ℚ) / 1000 - (j : ℚ) / 1000 ≤ 1 := by
      have hj : (0 : ℚ) ≤ (j : ℚ) / 1000 := by positivity
      linarith
    calc S * ((999 : ℚ) / 1000 - (j : ℚ) / 1000) ≤ S * 1 :=
          mul_le_mul_of_nonneg_left h1 hS
      _ = S := mul_one S
  · calc S * ((999 : ℚ) / 1000 - (j : ℚ) / 1000) ≤ 0 :=
          mul_nonpos_of_nonneg_of_nonpos hS h2.le
      _ ≤ S := hS

/-- The submission attempts `handle_insufficient_funds` makes, starting
from attempt index `i` with `fuel` loop iterations left. -/
def hifAttempts (ot : OrderType) (bc qc : Currency) (pr S : ℚ) :
    ℕ → ℕ → List SubmitEvent
  | 0, _ => []
  | fuel + 1, i =>
    ⟨Side.buy, hifOrder ot bc qc pr S i⟩ :: hifAttempts ot bc qc pr S fuel (i + 1)

/-- The `handle_insufficient_funds` loop under an unchanged exchange
balance and persistent insufficient-funds replies: every one of the
remaining attempts shrinks the size to `orig × (0.999 − 0.001·j)` (rounded
down to 8 decimals), submits it through `Account.buy` (whose full capture
is refunded on the failure), and the loop finally gives up with `None`. -/
theorem hif_go_all_insufficient (takerFee : ℚ) (now : ℤ)
    (exchReads : ℕ → List (Currency × ℚ)) (replies : ℕ → ServerReply)
    (ot : OrderType) (bc qc : Currency) (pr b S : ℚ)
    (hpr : 0 ≤ pr) (hS : 0 ≤ S) (hSb : S * pr ≤ b)
    (hexch : ∀ j, exchReads j = [(qc, b)])
    (hreply : ∀ j, submitResult (replies j) = .error .insufficientFunds) :
    ∀ (fuel i : ℕ) (st : AccountSt) (sz : ℚ) (evs : List SubmitEvent)
      (v : ℚ),
    st.virtual = true →
    balGet st.balance qc = some (some v) → v = b →
    ∃ stf oF,
      handleInsufficientFunds.go takerFee now exchReads replies fuel i S st
        (hifOrderSz ot bc qc pr sz) evs =
      .ok (none, stf, oF, evs ++ hifAttempts ot bc qc pr S fuel i)
  | 0, i, st, sz, evs, v, _, _, _ => by
    exact ⟨st, hifOrderSz ot bc qc pr sz,
      by simp [handleInsufficientFunds.go, hifAttempts]⟩
  | fuel + 1, i, st, sz, evs, v, hvirt, hbal, hv => by
    rw [hv] at hbal
    have hga := getAccounts_single st.balance qc b b hbal
    have hcaple : hifSize S i * pr ≤ b :=
      le_trans (mul_le_mul_of_nonneg_right (hifSize_le S hS i) hpr) hSb
    have hcap : captureBalanceForOrder true takerFee
        (balSet st.balance qc (some b)) (hifOrder ot bc qc pr S i) =
        .ok (balSet (balSet st.balance qc (some b)) qc
              (some (b - hifSize S i * pr)),
             some qc, some (hifSize S i * pr)) := by
      simp only [captureBalanceForOrder, hifOrder, hifOrderSz,
        balGet_balSet_same, Bool.not_true, not_true_eq_false, if_false,
        ite_false, ite_true, if_true]
      rw [if_neg (not_lt.mpr hcaple)]
    have hact : orderAction takerFee now
        { balance := balSet st.balance qc (some b)
          pendingOrders := st.pendingOrders
          unconfirmedOrders := st.unconfirmedOrders
          doneOrders := st.doneOrders
          virtual := true }
        (hifOrder ot bc qc pr S i) (replies i) =
        (.error .insufficientFunds,
         { balance :=
             balSet (balSet (balSet st.balance qc (some b)) qc
               (some (b - hifSize S i * pr))) qc
               (some (b - hifSize S i * pr + hifSize S i * pr))
           pendingOrders := st.pendingOrders
           unconfirmedOrders := []
           doneOrders := st.doneOrders
           virtual := true },
         true) := by
      unfold orderAction
      dsimp only
      rw [hcap, hreply i]
      simp only [refundActive, balGet_balSet_same]
    obtain ⟨stf, oF, ih⟩ := hif_go_all_insufficient takerFee now exchReads
      replies ot bc qc pr b S hpr hS hSb hexch hreply fuel (i + 1)
      { balance :=
          balSet (balSet (balSet st.balance qc (some b)) qc
            (some (b - hifSize S i * pr))) qc
            (some (b - hifSize S i * pr + hifSize S i * pr))
        pendingOrders := st.pendingOrders
        unconfirmedOrders := []
        doneOrders := st.doneOrders
        virtual := true }
      (hifSize S i) (evs ++ [⟨Side.buy, hifOrder ot bc qc pr S i⟩])
      (b - hifSize S i * pr + hifSize S i * pr)
      rfl (balGet_balSet_same _ _ _) (by ring)
    refine ⟨stf, oF, ?_⟩
    simp only [handleInsufficientFunds.go, hifOrder, hifOrderSz, hvirt, hbal,
      hexch, hga, balGet_balSet_same, min_self, lt_self_iff_false, if_false,
      ite_false]
    simp only [hifOrder, hifOrderSz, hifSize] at hact ih ⊢
    rw [hact]
    simp only [if_true, ite_true]
    rw [ih]
    simp [hifAttempts, hifOrder, hifOrderSz, hifSize]

/-- When the refreshed balance *drops* below the pre-refresh read,
`handle_insufficient_funds` gives up immediately on its very first
iteration: no retry is attempted at any size, and `None` is returned. -/
theorem hif_abandons_on_drop (takerFee : ℚ) (now : ℤ)
    (exchReads : ℕ → List (Currency × ℚ)) (replies : ℕ → ServerReply)
    (st : AccountSt) (o : Order) (b b' : ℚ)
    (hvirt : st.virtual = true)
    (hbal : balGet st.balance o.productQuote = some (some b))
    (hexch : exchReads 0 = [(o.productQuote, b')]) (hb' : b' < b) :
    handleInsufficientFunds takerFee now exchReads replies st o =
      .ok (none,
        { st with
          balance := balSet st.balance o.productQuote (some (min b b')) },
        o, []) := by
  have hga := getAccounts_single st.balance o.productQuote b b' hbal
  have hlt : min b b' < b := lt_of_le_of_lt (min_le_right b b') hb'
  unfold handleInsufficientFunds
  rw [show (5 : ℕ) = 4 + 1 from rfl]
  simp only [handleInsufficientFunds.go, hvirt, hbal, hexch, hga,
    balGet_balSet_same]
  rw [if_pos hlt]

/-- **C5** (corrected).  The insufficient-funds fallback re-reads the
exchange balance before each retry, but a *changed* balance does not make
it "retry immediately at the same size": when the tracked quote balance
drops after the refresh, the loop gives up at once, returning `None` with
no attempt made (first conjunct).  Only while the balance is unchanged
does it retry, shrinking the requested size to
`orig × (0.999 − 0.001·i)` — a fixed decrement of 0.1% of the original
size per attempt, the attempt sizes running `0.999·S, 0.998·S, 0.997·S,
0.996·S, 0.995·S` — before giving up after the 5-attempt budget (second
conjunct); in particular between the first and the third attempt the size
shrinks by the decrement exactly twice. -/
theorem handleInsufficientFunds_behaviour :
    (∀ (takerFee : ℚ) (now : ℤ) (exchReads : ℕ → List (Currency × ℚ))
       (replies : ℕ → ServerReply) (st : AccountSt) (o : Order) (b b' : ℚ),
      st.virtual = true →
      balGet st.balance o.productQuote = some (some b) →
      exchReads 0 = [(o.productQuote, b')] → b' < b →
      handleInsufficientFunds takerFee now exchReads replies st o =
        .ok (none,
          { st with
            balance := balSet st.balance o.productQuote (some (min b b')) },
          o, [])) ∧
    (∀ (takerFee : ℚ) (now : ℤ) (exchReads : ℕ → List (Currency × ℚ))
       (replies : ℕ → ServerReply) (st : AccountSt) (ot : OrderType)
       (bc qc : Currency) (pr b S : ℚ),
      0 ≤ pr → 0 ≤ S → S * pr ≤ b →
      st.virtual = true →
      balGet st.balance qc = some (some b) →
      (∀ j, exchReads j = [(qc, b)]) →
      (∀ j, submitResult (replies j) = .error .insufficientFunds) →
      ∃ stf oF,
        handleInsufficientFunds takerFee now exchReads replies st
          (hifOrderSz ot bc qc pr S) =
        .ok (none, stf, oF,
          [⟨Side.buy, hifOrder ot bc qc pr S 0⟩,
           ⟨Side.buy, hifOrder ot bc qc pr S 1⟩,
           ⟨Side.buy, hifOrder ot bc qc pr S 2⟩,
           ⟨Side.buy, hifOrder ot bc qc pr S 3⟩,
           ⟨Side.buy, hifOrder ot bc qc pr S 4⟩])) := by
  refine ⟨hif_abandons_on_drop, ?_⟩
  intro takerFee now exchReads replies st ot bc qc pr b S hpr hS hSb hvirt
    hbal hexch hreply
  obtain ⟨stf, oF, h⟩ := hif_go_all_insufficient takerFee now exchReads
    replies ot bc qc pr b S hpr hS hSb hexch hreply 5 0 st S [] b hvirt hbal
    rfl
  refine ⟨stf, oF, ?_⟩
  have hsz : (hifOrderSz ot bc qc pr S).size = S := rfl
  unfold handleInsufficientFunds
  rw [hsz, h]
  simp [hifAttempts]

theorem handleInsufficientFunds_behaviour_witness :
    ∃ stf oF,
      handleInsufficientFunds 0 0 (fun _ => [("EUR", 10)])
        (fun _ => .raised .insufficientFunds) c1State
        (hifOrderSz .limit "ETH" "EUR" 100 (1 / 20)) =
      .ok (none, stf, oF,
        [⟨Side.buy, hifOrder .limit "ETH" "EUR" 100 (1 / 20) 0⟩,
         ⟨Side.buy, hifOrder .limit "ETH" "EUR" 100 (1 / 20) 1⟩,
         ⟨Side.buy, hifOrder .limit "ETH" "EUR" 100 (1 / 20) 2⟩,
         ⟨Side.buy, hifOrder .limit "ETH" "EUR" 100 (1 / 20) 3⟩,
         ⟨Side.buy, hifOrder .limit "ETH" "EUR" 100 (1 / 20) 4⟩]) :=
  handleInsufficientFunds_behaviour.2 0 0 (fun _ => [("EUR", 10)])
    (fun _ => .raised .insufficientFunds) c1State .limit "ETH" "EUR" 100
    10 (1 / 20) (by norm_num) (by norm_num) (by norm_num) rfl rfl
    (fun _ => rfl) (fun _ => rfl)

/-- **C5** counterexample.  Starting from a tracked balance of 10 EUR,
the first refresh reports only 5 EUR — the balance *changed* since the
previous attempt — yet `handle_insufficient_funds` performs **no** retry
at the same size (or any size): it returns `None` with an empty attempt
list, against the claim that a changed balance causes an immediate retry
at the same size. -/
theorem handleInsufficientFunds_drop_counterexample :
    handleInsufficientFunds 0 0 (fun _ => [("EUR", 5)])
      (fun _ => .raised .insufficientFunds) c1State c1Order =
      .ok (none,
        { c1State with
          balance := balSet c1State.balance "EUR" (some (min 10 5)) },
        c1Order, []) :=
  hif_abandons_on_drop 0 0 (fun _ => [("EUR", 5)])
    (fun _ => .raised .insufficientFunds) c1State c1Order 10 5 rfl rfl rfl
    (by norm_num)

theorem cancelFoldStep_foldl (cancelWait : String → Option OrderState) :
    ∀ (l : List OrderState) (q : Pair),
    (l.foldl (cancelFoldStep cancelWait) q).filledSize =
      q.filledSize + (l.map (cancelContribution cancelWait)).sum ∧
    (l.foldl (cancelFoldStep cancelWait) q).rule = q.rule ∧
    (l.foldl (cancelFoldStep cancelWait) q).status = q.status ∧
    (l.foldl (cancelFoldStep cancelWait) q).settled = q.settled ∧
    (l.foldl (cancelFoldStep cancelWait) q).size = q.size ∧
    (l.foldl (cancelFoldStep cancelWait) q).pendingOrders = q.pendingOrders
  | [], q => by simp
  | o :: rest, q => by
    obtain ⟨ih1, ih2, ih3, ih4, ih5, ih6⟩ :=
      cancelFoldStep_foldl cancelWait rest (cancelFoldStep cancelWait q o)
    have hstep :
        (cancelFoldStep cancelWait q o).filledSize =
          q.filledSize + cancelContribution cancelWait o ∧
        (cancelFoldStep cancelWait q o).rule = q.rule ∧
        (cancelFoldStep cancelWait q o).status = q.status ∧
        (cancelFoldStep cancelWait q o).settled = q.settled ∧
        (cancelFoldStep cancelWait q o).size = q.size ∧
        (cancelFoldStep cancelWait q o).pendingOrders = q.pendingOrders := by
      unfold cancelFoldStep cancelContribution
      cases h : cancelWait o.id with
      | none => simp
      | some os =>
        by_cases hd : os.status = "done"
        · simp [hd, pairUpdateBalance]
        · simp [hd]
    obtain ⟨hs1, hs2, hs3, hs4, hs5, hs6⟩ := hstep
    rw [List.foldl_cons]
    refine ⟨?_, by rw [ih2, hs2], by rw [ih3, hs3], by rw [ih4, hs4],
      by rw [ih5, hs5], by rw [ih6, hs6]⟩
    rw [ih1, hs1, List.map_cons, List.sum_cons]
    ring

/-- The cancellation loop clears the pending list, folds exactly the
cancelled fills into the pair's totals, and leaves the state-machine
fields (rule, status, settled flag, target size) untouched. -/
theorem cancelFoldPending_spec (cancelWait : String → Option OrderState)
    (p : Pair) :
    (cancelFoldPending cancelWait p).pendingOrders = [] ∧
    (cancelFoldPending cancelWait p).filledSize =
      p.filledSize +
        (p.pendingOrders.map (cancelContribution cancelWait)).sum ∧
    (cancelFoldPending cancelWait p).rule = p.rule ∧
    (cancelFoldPending cancelWait p).status = p.status ∧
    (cancelFoldPending cancelWait p).settled = p.settled ∧
    (cancelFoldPending cancelWait p).size = p.size := by
  obtain ⟨h1, h2, h3, h4, h5, h6⟩ :=
    cancelFoldStep_foldl cancelWait p.pendingOrders p
  exact ⟨rfl, h1, h2, h3, h4, h5⟩

/-- Inversion of a successful `new_order`: the built order carries the
template's type, side and product, the template price formula rounded
down to the product precision, and the truthiness of the stringified
`post_only`. -/
theorem newOrder_ok_fields (virtual : Bool) (bal : Balance)
    (exch : List (Currency × ℚ)) (book : OrderBook)
    (accountPairs : List Pair) (p : Pair) (tmpl : OrderTemplate) (o : Order)
    (bal' : Balance)
    (h : newOrder virtual bal exch book accountPairs p tmpl = .ok (o, bal')) :
    o.type = tmpl.type ∧ o.side = tmpl.side ∧
    o.productBase = tmpl.productBase ∧ o.productQuote = tmpl.productQuote := by
  cases hside : tmpl.side with
  | buy =>
    cases hc : calcBuySize (getAccounts virtual bal exch) accountPairs p
        (evalPriceFormula tmpl.priceFormula book.bid book.ask) with
    | error e => simp [newOrder, hside, hc, Bind.bind, Except.bind] at h
    | ok s =>
      simp only [newOrder, hside, hc, Bind.bind, Except.bind,
        Except.ok.injEq, Prod.mk.injEq] at h
      obtain ⟨ho, _⟩ := h
      rw [← ho]
      exact ⟨rfl, rfl, rfl, rfl⟩
  | sell =>
    cases hc : calcSellSize (getAccounts virtual bal exch) p with
    | error e => simp [newOrder, hside, hc, Bind.bind, Except.bind] at h
    | ok s =>
      simp only [newOrder, hside, hc, Bind.bind, Except.bind,
        Except.ok.injEq, Prod.mk.injEq] at h
      obtain ⟨ho, _⟩ := h
      rw [← ho]
      exact ⟨rfl, rfl, rfl, rfl⟩

/-- Execution of the market-fallback arm of `update_pair_position`: for an
unsettled limit pair already concluded `done`, every pending order is
cancelled and folded, the `market_fallback` flag is consumed, and the
rebuilt one-shot market order is submitted once through the (sell-wrapper)
channel; a `done`/settled reply folds the fill and settles the pair. -/
theorem updatePairPosition_fallback_run (takerFee : ℚ) (now : ℤ)
    (exch : List (Currency × ℚ)) (book : OrderBook) (draws : ℕ → ℚ)
    (fuel : ℕ) (getOrder : String → GetOrderRes)
    (cancelWait : String → Option OrderState)
    (waitFor : String → Option OrderState)
    (limitReplies marketReplies : ℕ → ServerReply)
    (hifExch : ℕ → List (Currency × ℚ)) (hifReplies : ℕ → ServerReply)
    (accountPairs : List Pair) (st : AccountSt) (p : Pair) (r : Rule)
    (o : Order) (balR balC : Balance) (cur : Option Currency)
    (cap : Option ℚ) (os : OrderState)
    (hrule : p.rule = some r)
    (htype : r.orderTemplate.type = OrderType.limit)
    (hstatus : p.status = some "done") (hsettled : p.settled = false)
    (hfb : r.marketFallback = true)
    (hnew : newOrder st.virtual st.balance exch book accountPairs
      { cancelFoldPending cancelWait p with
        rule := some { r with marketFallback := false } }
      { r.orderTemplate with type := OrderType.market, postOnly := none } =
      .ok (o, balR))
    (hcap : captureBalanceForOrder st.virtual takerFee balR o =
      .ok (balC, cur, cap))
    (hrep : marketReplies 0 = .state os)
    (hos : os.status = "done") (hsl : os.settled = true) :
    updatePairPosition takerFee now exch book draws fuel getOrder
        cancelWait waitFor limitReplies marketReplies hifExch hifReplies
        accountPairs st p =
      .ok ({ st with
             balance := balC
             pendingOrders := assocSet st.pendingOrders os.id
               { order := o, currency := cur, captured := cap
                 timestamp := now, orderState := some os }
             unconfirmedOrders := [] },
           { pairUpdateBalance
               { cancelFoldPending cancelWait p with
                 rule := some { r with marketFallback := false } } os with
             settled := true, status := some "done" },
           [⟨Side.sell, o⟩]) := by
  obtain ⟨hot, _, _, _⟩ := newOrder_ok_fields st.virtual st.balance exch book
    accountPairs
    { cancelFoldPending cancelWait p with
      rule := some { r with marketFallback := false } }
    { r.orderTemplate with type := OrderType.market, postOnly := none }
    o balR hnew
  obtain ⟨_, _, hcfr, _, _, _⟩ := cancelFoldPending_spec cancelWait p
  have hcfr' : (cancelFoldPending cancelWait p).rule = some r := by
    rw [hcfr, hrule]
  have hchan : (if orderTypeStr o.type = "buy" then Side.buy else Side.sell) =
      Side.sell := by
    rw [hot]
    simp [orderTypeStr]
  have hmarket : placeMarketOrder takerFee now exch book marketReplies
      waitFor hifExch hifReplies accountPairs st
      { cancelFoldPending cancelWait p with
        rule := some { r with marketFallback := false } } =
      .ok ({ st with
             balance := balC
             pendingOrders := assocSet st.pendingOrders os.id
               { order := o, currency := cur, captured := cap
                 timestamp := now, orderState := some os }
             unconfirmedOrders := [] },
           { pairUpdateBalance
               { cancelFoldPending cancelWait p with
                 rule := some { r with marketFallback := false } } os with
             settled := true, status := some "done" },
           [⟨Side.sell, o⟩]) := by
    unfold placeMarketOrder
    simp only [hnew, Bind.bind, Except.bind, hchan]
    unfold placeOrders placeOrders.go
    unfold orderAction
    simp only [hcap, hrep, submitResult, hos, hsl, if_pos rfl, if_true,
      ite_true, if_false, ite_false]
    simp only [placeOrders.go]
    simp [hos, hsl]
  unfold updatePairPosition
  rw [hrule]
  simp only [htype, hstatus, hsettled, if_pos rfl, Bind.bind, Except.bind]
  simp only [hcfr', hfb, Bool.not_true, if_false, ite_false, hmarket,
    reduceCtorEq, ne_eq, not_true_eq_false, Bool.false_eq_true, if_true,
    ite_true, or_true, true_or, List.nil_append]

/-- C3 (corrected).  For every pair whose limit cycle ended `done` without
settling while its rule still permits market fallback, `update_pair_position`
cancels every pending order of the pair, folds each cancelled order's
completed partial fill into the pair's totals, consumes the
`market_fallback` flag, and submits exactly one market order whose
submitted side is the template's side (the buy/sell *wrapper* is chosen by
the source's `order.type == 'buy'` test, which is never true for a market
order, but the adapters read the side from the order itself).  The market
order's size, however, is **not** the residual (unfilled) size: `new_order`
re-evaluates the template's size formula against the refreshed balance,
ignoring `pair.size - pair.filled_size` (see the counterexample). -/
theorem updatePairPosition_marketFallback (takerFee : ℚ) (now : ℤ)
    (exch : List (Currency × ℚ)) (book : OrderBook) (draws : ℕ → ℚ)
    (fuel : ℕ) (getOrder : String → GetOrderRes)
    (cancelWait : String → Option OrderState)
    (waitFor : String → Option OrderState)
    (limitReplies marketReplies : ℕ → ServerReply)
    (hifExch : ℕ → List (Currency × ℚ)) (hifReplies : ℕ → ServerReply)
    (accountPairs : List Pair) (st : AccountSt) (p : Pair) (r : Rule)
    (o : Order) (balR balC : Balance) (cur : Option Currency)
    (cap : Option ℚ) (os : OrderState)
    (hrule : p.rule = some r)
    (htype : r.orderTemplate.type = OrderType.limit)
    (hstatus : p.status = some "done") (hsettled : p.settled = false)
    (hfb : r.marketFallback = true)
    (hnew : newOrder st.virtual st.balance exch book accountPairs
      { cancelFoldPending cancelWait p with
        rule := some { r with marketFallback := false } }
      { r.orderTemplate with type := OrderType.market, postOnly := none } =
      .ok (o, balR))
    (hcap : captureBalanceForOrder st.virtual takerFee balR o =
      .ok (balC, cur, cap))
    (hrep : marketReplies 0 = .state os)
    (hos : os.status = "done") (hsl : os.settled = true) :
    ∃ st' p',
      updatePairPosition takerFee now exch book draws fuel getOrder
          cancelWait waitFor limitReplies marketReplies hifExch hifReplies
          accountPairs st p = .ok (st', p', [⟨Side.sell, o⟩]) ∧
      o.type = OrderType.market ∧
      o.side = r.orderTemplate.side ∧
      SubmitEvent.submittedSide ⟨Side.sell, o⟩ = r.orderTemplate.side ∧
      p'.pendingOrders = [] ∧
      p'.settled = true ∧
      p'.status = some "done" ∧
      p'.filledSize =
        p.filledSize +
          (p.pendingOrders.map (cancelContribution cancelWait)).sum +
          os.filledSize := by
  obtain ⟨hot, hside, _, _⟩ := newOrder_ok_fields st.virtual st.balance exch
    book accountPairs
    { cancelFoldPending cancelWait p with
      rule := some { r with marketFallback := false } }
    { r.orderTemplate with type := OrderType.market, postOnly := none }
    o balR hnew
  refine ⟨_, _,
    updatePairPosition_fallback_run takerFee now exch book draws fuel
      getOrder cancelWait waitFor limitReplies marketReplies hifExch
      hifReplies accountPairs st p r o balR balC cur cap os hrule htype
      hstatus hsettled hfb hnew hcap hrep hos hsl,
    hot, hside, hside, rfl, rfl, rfl, ?_⟩
  show (cancelFoldPending cancelWait p).filledSize + os.filledSize =
    p.filledSize +
      (p.pendingOrders.map (cancelContribution cancelWait)).sum +
      os.filledSize
  obtain ⟨_, hfs, _, _, _, _⟩ := cancelFoldPending_spec cancelWait p
  rw [hfs]

/-- A pending limit order of the fallback pair. -/
def c3Pending : OrderState :=
  { c2ServerOrder with id := "c3p" }

/-- The state `cancel_order` hands back for `c3Pending`: done, half filled. -/
def c3Cancelled : OrderState :=
  { c3Pending with
    status := "done"
    settled := true
    filledSize := 1 / 2
    executedValue := 50 }

def c3CancelWait : String → Option OrderState := fun _ => some c3Cancelled

/-- A sell pair whose limit cycle concluded `done` but unsettled, one order
still pending, under the shipped short rule (`market_fallback = true`). -/
def c3Pair : Pair :=
  { midflightPair with
    rule := some birdSellRule
    status := some "done"
    pendingOrders := [c3Pending] }

def c3State : AccountSt :=
  { balance := [("ETH", some 2), ("EUR", some 0)], pendingOrders := []
    unconfirmedOrders := [], doneOrders := [], virtual := true }

/-- The one-shot market order `new_order` rebuilds for `c3Pair`: its size
is the template's `{max_account_sell_size}` formula re-evaluated against
the refreshed balance (2 ETH), not the pair's residual size. -/
def c3Order : Order :=
  { type := .market, side := .sell, productBase := "ETH"
    productQuote := "EUR", price := some (roundDown 101 2)
    size := roundDown 2 8, postOnly := false }

/-- The exchange's confirmation of the market order: done and settled. -/
def c3Os : OrderState :=
  { id := "c3m", type := .market, side := .sell, productBase := "ETH"
    productQuote := "EUR", price := 0, size := roundDown 2 8
    filledSize := roundDown 2 8, executedValue := 200, fillFees := 0
    status := "done", settled := true, timestamp := 301 }

def c3MarketReplies : ℕ → ServerReply := fun _ => .state c3Os

theorem updatePairPosition_marketFallback_witness :
    ∃ st' p',
      updatePairPosition (3 / 1000) 301 [] ⟨100, 101⟩ (fun _ => 0) 5
          (fun _ => GetOrderRes.notFound) c3CancelWait (fun _ => none)
          (fun _ => ServerReply.noReply) c3MarketReplies (fun _ => [])
          (fun _ => ServerReply.noReply) [] c3State c3Pair =
        .ok (st', p', [⟨Side.sell, c3Order⟩]) ∧
      c3Order.type = OrderType.market ∧
      c3Order.side = birdSellRule.orderTemplate.side ∧
      SubmitEvent.submittedSide ⟨Side.sell, c3Order⟩ =
        birdSellRule.orderTemplate.side ∧
      p'.pendingOrders = [] ∧
      p'.settled = true ∧
      p'.status = some "done" ∧
      p'.filledSize =
        c3Pair.filledSize +
          (c3Pair.pendingOrders.map (cancelContribution c3CancelWait)).sum +
          c3Os.filledSize :=
  updatePairPosition_marketFallback (3 / 1000) 301 [] ⟨100, 101⟩
    (fun _ => 0) 5 (fun _ => GetOrderRes.notFound) c3CancelWait
    (fun _ => none) (fun _ => ServerReply.noReply) c3MarketReplies
    (fun _ => []) (fun _ => ServerReply.noReply) [] c3State c3Pair
    birdSellRule c3Order c3State.balance
    (balSet c3State.balance "ETH" (some (2 - roundDown 2 8))) (some "ETH")
    (some (roundDown 2 8)) c3Os rfl rfl rfl rfl rfl rfl
    (by
      have hle : ¬ ((2 : ℚ) < roundDown 2 8) := not_lt.mpr (roundDown_le 8)
      simp [captureBalanceForOrder, c3Order, c3State, balGet, balSet, hle])
    rfl rfl rfl

/-- A rule like the shipped short rule but with a fixed order size of 3. -/
def c3CxRule : Rule :=
  { birdSellRule with orderTemplate :=
      { ethEurSellTemplate with sizeFormula := .fixed 3 } }

/-- A pair targeting 3 ETH with 1 ETH already filled (residual 2 ETH),
done but unsettled, nothing left pending. -/
def c3CxPair : Pair :=
  { midflightPair with
    rule := some c3CxRule
    status := some "done"
    size := 3 }

def c3CxState : AccountSt :=
  { c3State with balance := [("ETH", some 5), ("EUR", some 0)] }

/-- The market order rebuilt for `c3CxPair`: sized by the template's fixed
formula (3), not by the residual (2). -/
def c3CxOrder : Order :=
  { type := .market, side := .sell, productBase := "ETH"
    productQuote := "EUR", price := some (roundDown 101 2)
    size := roundDown 3 8, postOnly := false }

def c3CxOs : OrderState :=
  { c3Os with size := roundDown 3 8, filledSize := roundDown 3 8 }

def c3CxReplies : ℕ → ServerReply := fun _ => .state c3CxOs

/-- C3 counterexample.  A pair with residual size 2 (target 3, filled 1)
whose fixed-size-3 template triggers the market fallback submits a market
order of size `round_down(3) = 3`, not the residual 2: `new_order`
re-evaluates the template's size formula and never consults
`pair.size - pair.filled_size`, against the claim's "market order for the
residual (unfilled) size". -/
theorem updatePairPosition_residual_counterexample :
    ∃ st' p',
      updatePairPosition (3 / 1000) 301 [] ⟨100, 101⟩ (fun _ => 0) 5
          (fun _ => GetOrderRes.notFound) (fun _ => none) (fun _ => none)
          (fun _ => ServerReply.noReply) c3CxReplies (fun _ => [])
          (fun _ => ServerReply.noReply) [] c3CxState c3CxPair =
        .ok (st', p', [⟨Side.sell, c3CxOrder⟩]) ∧
      c3CxOrder.type = OrderType.market ∧
      c3CxOrder.size ≠ c3CxPair.size - c3CxPair.filledSize := by
  refine ⟨_, _,
    updatePairPosition_fallback_run (3 / 1000) 301 [] ⟨100, 101⟩
      (fun _ => 0) 5 (fun _ => GetOrderRes.notFound) (fun _ => none)
      (fun _ => none) (fun _ => ServerReply.noReply) c3CxReplies
      (fun _ => []) (fun _ => ServerReply.noReply) [] c3CxState c3CxPair
      c3CxRule c3CxOrder c3CxState.balance
      (balSet c3CxState.balance "ETH" (some (5 - roundDown 3 8)))
      (some "ETH") (some (roundDown 3 8)) c3CxOs rfl rfl rfl rfl rfl rfl
      (by
        have hle : ¬ ((5 : ℚ) < roundDown 3 8) :=
          not_lt.mpr (le_trans (roundDown_le 8) (by norm_num))
        simp [captureBalanceForOrder, c3CxOrder, c3CxState, c3State, balGet,
          balSet, hle])
      rfl rfl rfl,
    rfl, ?_⟩
  show roundDown (3 : ℚ) 8 ≠ 3 - 1
  have h3 : roundDown (3 : ℚ) 8 = 3 := by
    unfold roundDown
    norm_num
  rw [h3]
  norm_num

end Birdtradebot
